import Mathlib

/-!
# Employee database command-line tool (src/Code.cpp)

A shallow embedding of `Code.cpp` and a verification of its behaviour.

* C++ strings and C strings are lists of characters (`Text`).
* The C++ type `int` is the subtype `CInt` of the integers that fit in 32 bits.
* The database file is the value `Db`: the rows of table EMPLOYEE (absent until the
  table is created), the AUTOINCREMENT counter and the list of statements executed
  so far.  Every `Database` method takes the state before and returns the state
  after, inside `Outcome`, which also tells a normal return from a thrown exception.
* The SQLite engine and the C/C++ library routines the program calls (`std::stoi`,
  `std::to_string`, `std::get_time`, `std::mktime`) are modelled after their
  documented behaviour, on the inputs this program can give them.  The time zone of the
  host is a parameter (`Zone`), as are the clock and the outcome of opening the file.
-/

namespace EmployeeDb

/-! ## Text and decimal numbers -/

/-- Text is the content of a `std::string` or of a NUL-terminated C string:
its characters in order (without the terminator, and with no embedded NUL). -/
abbrev Text := List Char

/-- The single quote character, which delimits SQL string literals. -/
def quote : Char := Char.ofNat 39

/-- The C++ type `int`: a 32 bit two's complement integer. -/
abbrev CInt := { n : Int // -2147483648 ≤ n ∧ n ≤ 2147483647 }

/-- The character of a decimal digit `d < 10`. -/
def digitChar (d : Nat) : Char := Char.ofNat (48 + d)

/-- The test `isdigit`. -/
def isDigit (c : Char) : Bool := decide (48 ≤ c.toNat) && decide (c.toNat ≤ 57)

/-- The value of a decimal digit character. -/
def digitVal (c : Char) : Nat := c.toNat - 48

/-- The test `isspace` in the C locale. -/
def isSpace (c : Char) : Bool := c.toNat == 32 || (decide (9 ≤ c.toNat) && decide (c.toNat ≤ 13))

/-- Decimal digits of `n`, most significant first, pushed in front of `acc`;
the first argument bounds the number of digits produced. -/
def digitsAux : Nat → Nat → Text → Text
  | 0, _, acc => acc
  | fuel + 1, n, acc =>
    if n < 10 then digitChar n :: acc
    else digitsAux fuel (n / 10) (digitChar (n % 10) :: acc)

/-- The decimal numeral of a natural number. -/
def natToText (n : Nat) : Text := digitsAux (n + 1) n []

/-- The function `std::to_string(int)`, also the text `operator<<` prints for an int and the
text SQLite renders for an INTEGER value: a minus sign for negative numbers, then the decimal
digits. -/
def to_string (n : Int) : Text :=
  if n < 0 then '-' :: natToText n.natAbs else natToText n.toNat

/-- Reads the decimal digits at the front of the input: their value (continuing from `acc`)
and the rest of the input. -/
def readNat : Nat → Text → Nat × Text
  | acc, [] => (acc, [])
  | acc, c :: t => if isDigit c then readNat (acc * 10 + digitVal c) t else (acc, c :: t)

/-- True when the input begins with a decimal digit. -/
def startsWithDigit : Text → Bool
  | [] => false
  | c :: _ => isDigit c

/-- The function `std::stoi(str)` (base 10): skips leading white space, takes an optional sign
and the digits that follow, ignores what comes after them.  Throws `std::invalid_argument`
when there is no digit and `std::out_of_range` when the value does not fit an `int`; both
exceptions carry the text "stoi". -/
def stoi (s : Text) : Except Text CInt :=
  let s1 := s.dropWhile isSpace
  let negative := s1.head? == some '-'
  let body := if s1.head? == some '-' || s1.head? == some '+' then s1.tail else s1
  if startsWithDigit body then
    let magnitude : Int := ((readNat 0 body).1 : Int)
    let value : Int := if negative then -magnitude else magnitude
    if h : -2147483648 ≤ value ∧ value ≤ 2147483647 then .ok ⟨value, h⟩
    else .error "stoi".toList
  else .error "stoi".toList

/-! ## Employee and the age calculation -/

/-- The class `Employee`: three strings and an `int`. -/
structure Employee where
  fullName : Text
  birthDate : Text
  gender : Text
  age : CInt
deriving DecidableEq

/-- The fields of `std::tm` that the program uses.  `std::tm tm = {}` zeroes all of them and
`get_time` with the pattern `%Y-%m-%d` writes year, month and day only. -/
structure Tm where
  tm_sec : Int
  tm_min : Int
  tm_hour : Int
  tm_mday : Int
  tm_mon : Int
  tm_year : Int
deriving DecidableEq

/-- The zero-initialised `std::tm`. -/
def zeroTm : Tm := ⟨0, 0, 0, 0, 0, 0⟩

/-- Reads at most `len` digits (continuing from `acc`). -/
def extractDigits : Nat → Nat → Text → Nat × Text
  | 0, acc, s => (acc, s)
  | _ + 1, acc, [] => (acc, [])
  | len + 1, acc, c :: t =>
    if isDigit c then extractDigits len (acc * 10 + digitVal c) t else (acc, c :: t)

/-- A numeric field of `get_time`: one to `len` digits whose value lies in `lo..hi`. -/
def extractNum (lo hi len : Nat) (s : Text) : Option (Nat × Text) :=
  if startsWithDigit s then
    let r := extractDigits len 0 s
    if lo ≤ r.1 ∧ r.1 ≤ hi then some r else none
  else none

/-- Expects the character `c` at the front of the input. -/
def expectChar (c : Char) : Text → Option Text
  | [] => none
  | d :: t => if d = c then some t else none

/-- Skips one white space character, as the conversion `%d` does before its digits. -/
def skipOneSpace : Text → Text
  | [] => []
  | c :: t => if isSpace c then t else c :: t

/-- The statement `ss >> std::get_time(&tm, "%Y-%m-%d")` on a zeroed `tm`, as libstdc++
carries it out.  The stream first skips leading white space.  Then the pattern is matched
piece by piece: a year of one to four digits, a hyphen, a month 1..12 of one or two digits,
a hyphen, a day 1..31 of one or two digits (after at most one white space character); what
follows the day is left unread.  Each number is stored in `tm` as soon as it is read.  When
a piece does not match, the stream fails and the program goes on with `tm` as it is then:
the fields read so far are set, the others are still zero. -/
def get_time (birthDate : Text) : Tm :=
  match extractNum 0 9999 4 (birthDate.dropWhile isSpace) with
  | none => zeroTm
  | some (y, s1) =>
    let tm1 : Tm := ⟨0, 0, 0, 0, 0, (y : Int) - 1900⟩
    match expectChar '-' s1 with
    | none => tm1
    | some s2 =>
      match extractNum 1 12 2 s2 with
      | none => tm1
      | some (m, s3) =>
        let tm2 : Tm := ⟨0, 0, 0, 0, (m : Int) - 1, (y : Int) - 1900⟩
        match expectChar '-' s3 with
        | none => tm2
        | some s4 =>
          match extractNum 1 31 2 (skipOneSpace s4) with
          | none => tm2
          | some (d, _) => ⟨0, 0, 0, (d : Int), (m : Int) - 1, (y : Int) - 1900⟩

/-- Days from 1970-01-01 to the day `d` of month `m` of year `y` in the proleptic Gregorian
calendar (a day number past the end of the month runs on into the next one). -/
def daysFromCivil (y m d : Int) : Int :=
  let y1 := if m ≤ 2 then y - 1 else y
  let era := y1 / 400
  let yoe := y1 - era * 400
  let mp := if m ≤ 2 then m + 9 else m - 3
  let doy := (153 * mp + 2) / 5 + d - 1
  let doe := yoe * 365 + yoe / 4 - yoe / 100 + doy
  era * 146097 + doe - 719468

/-- The local time zone as `std::mktime` uses it.  A local time is given in seconds counted
from 1970-01-01 00:00 on the local calendar and clock; `offset t` is the number of seconds by
which local time is ahead of UTC when `mktime` converts the local time `t`.  The offset may
differ from one local time to another (daylight saving time, changes of the standard time of
the zone, the choice `mktime` makes for `tm_isdst = 0`).

Two facts about the zones of a host are part of the type.  `bounded`: an offset is never more
than 25 hours, the most a TZ setting can express.  `ordered`: the local midnight of a day is
not a later instant than the local midnight of the next day, that is, the offset never grows
by more than 24 hours from one midnight to the next. -/
structure Zone where
  offset : Int → Int
  bounded : ∀ t : Int, -90000 ≤ offset t ∧ offset t ≤ 90000
  ordered : ∀ n : Int,
    n * 86400 - offset (n * 86400) ≤ (n + 1) * 86400 - offset ((n + 1) * 86400)

/-- The zone UTC, whose offset is always zero. -/
def Zone.utc : Zone :=
  ⟨fun _ => 0, fun _ => by constructor <;> norm_num,
    fun n => by show n * 86400 - 0 ≤ (n + 1) * 86400 - 0; omega⟩

instance : OfNat Zone 0 := ⟨Zone.utc⟩

/-- A zone whose standard time changes, as that of Moscow did: three hours ahead of UTC
until 27 March 2011, four hours from then on. -/
def Zone.shifted : Zone :=
  ⟨fun t => if t < 1301184000 then 10800 else 14400,
    fun t => by dsimp only; split_ifs <;> omega,
    fun n => by dsimp only; split_ifs <;> omega⟩

/-- The function `std::mktime`: seconds from the epoch to the local time `tm` in the zone.
Month numbers outside 0..11 carry into the year, day numbers outside the month carry into
the neighbouring months. -/
def mktime (zone : Zone) (tm : Tm) : Int :=
  let year := tm.tm_year + 1900 + tm.tm_mon / 12
  let month := tm.tm_mon % 12 + 1
  let localTime := daysFromCivil year month tm.tm_mday * 86400
    + tm.tm_hour * 3600 + tm.tm_min * 60 + tm.tm_sec
  localTime - zone.offset localTime

/-- The conversion `static_cast<int>` of a whole number: the number itself when it fits.
(C++ leaves the out-of-range case undefined; x86-64 yields INT_MIN.) -/
def static_cast_int (n : Int) : CInt :=
  if h : -2147483648 ≤ n ∧ n ≤ 2147483647 then ⟨n, h⟩ else ⟨-2147483648, by decide⟩

/-- The function `Employee::calculateAge`.  `now` is what `std::time(nullptr)` returns at
the call and `zone` the local time zone.

The code computes in `double`: `difftime(now, birthTime)`, then the division by
`365.25 * 24 * 60 * 60`, then `static_cast<int>`.  The model computes the same number on
integers.  A difference of two `time_t` values below 2^53 in size is a `double` exactly, and
so is the divisor 31557600.  IEEE division rounds the true quotient to the nearest `double`;
a true quotient that is not a whole number is at least 1/31557600 away from the next whole
number, which is more than the rounding error as long as the quotient is below 2^26 in size,
so rounding never crosses a whole number and the conversion to `int` yields the true quotient
truncated toward zero, `Int.tdiv`. -/
def calculateAge (zone : Zone) (now : Int) (birthDate : Text) : CInt :=
  let tm := get_time birthDate
  let birthTime := mktime zone tm
  let ageInSeconds := now - birthTime
  static_cast_int (Int.tdiv ageInSeconds 31557600)

/-! ## The database engine -/

/-- A row of table EMPLOYEE(ID, FULLNAME, BIRTHDATE, GENDER, AGE). -/
structure Row where
  id : Nat
  fullName : Text
  birthDate : Text
  gender : Text
  age : CInt
deriving DecidableEq

/-- The employee that a row holds: the row without its ID. -/
def Row.employee (r : Row) : Employee := ⟨r.fullName, r.birthDate, r.gender, r.age⟩

/-- The database file behind the `sqlite3*` handle. -/
structure Db where
  /-- Rows of table EMPLOYEE in ROWID order; `none` while the table does not exist. -/
  table : Option (List Row)
  /-- The largest ID that AUTOINCREMENT has given out. -/
  seq : Nat
  /-- The statements passed to `sqlite3_exec` so far, oldest first. -/
  trace : List Text
deriving DecidableEq

/-- What a call of `sqlite3_exec` leaves behind. -/
structure ExecOut where
  /-- Result code: 0 is SQLITE_OK, 1 is SQLITE_ERROR. -/
  rc : Nat
  /-- The text stored through the `errmsg` argument. -/
  errMsg : Text
  /-- The result rows handed to the callback, one `argv` per row, in order. -/
  rows : List (List Text)
  db : Db
deriving DecidableEq

/-- The statement of `createTable`. -/
def createTableSql : Text :=
  ("CREATE TABLE IF NOT EXISTS EMPLOYEE("
    ++ "ID INTEGER PRIMARY KEY AUTOINCREMENT, "
    ++ "FULLNAME TEXT NOT NULL, "
    ++ "BIRTHDATE TEXT NOT NULL, "
    ++ "GENDER TEXT NOT NULL, "
    ++ "AGE INTEGER NOT NULL);").toList

/-- The statement of `getAllEmployees`. -/
def selectAllSql : Text := "SELECT * FROM EMPLOYEE ORDER BY FULLNAME;".toList

/-- The statement of `getEmployeesByCriteria`. -/
def selectCriteriaSql : Text :=
  "SELECT * FROM EMPLOYEE WHERE GENDER = 'Male' AND FULLNAME LIKE 'F%';".toList

/-- The fixed head of the statement of `insertEmployee`, up to the first opening quote. -/
def insertHead : Text :=
  "INSERT INTO EMPLOYEE (FULLNAME, BIRTHDATE, GENDER, AGE) VALUES ('".toList

/-- Removes the text `p` from the front of the input. -/
def expectText : Text → Text → Option Text
  | [], s => some s
  | _ :: _, [] => none
  | c :: p, d :: s => if d = c then expectText p s else none

/-- Reads an SQL string literal after its opening quote: the characters up to the closing
quote, where two quotes in a row stand for one quote character of the value.  Returns the
value and the input after the closing quote; `none` when the literal is not closed. -/
def readStringLiteral : Text → Option (Text × Text)
  | [] => none
  | c :: rest =>
    if c = quote then
      match rest with
      | [] => some ([], [])
      | d :: rest2 =>
        if d = quote then
          match readStringLiteral rest2 with
          | some (v, r) => some (quote :: v, r)
          | none => none
        else some ([], d :: rest2)
    else
      match readStringLiteral rest with
      | some (v, r) => some (c :: v, r)
      | none => none

/-- Reads an integer literal with an optional minus sign that fits an `int`. -/
def readIntLiteral (s : Text) : Option (CInt × Text) :=
  let negative := s.head? == some '-'
  let body := if negative then s.tail else s
  if startsWithDigit body then
    let r := readNat 0 body
    let value : Int := if negative then -(r.1 : Int) else (r.1 : Int)
    if h : -2147483648 ≤ value ∧ value ≤ 2147483647 then some (⟨value, h⟩, r.2) else none
  else none

/-- The values of a one-row INSERT statement. -/
structure InsertValues where
  fullName : Text
  birthDate : Text
  gender : Text
  age : CInt
deriving DecidableEq

/-- Recognises a statement of the shape
`INSERT INTO EMPLOYEE (FULLNAME, BIRTHDATE, GENDER, AGE) VALUES ('..', '..', '..', n);`
with three string literals and an integer literal, and returns the values it denotes. -/
def parseInsert (sql : Text) : Option InsertValues :=
  match expectText insertHead sql with
  | none => none
  | some s1 =>
    match readStringLiteral s1 with
    | none => none
    | some (fullName, s2) =>
      match expectText ", '".toList s2 with
      | none => none
      | some s3 =>
        match readStringLiteral s3 with
        | none => none
        | some (birthDate, s4) =>
          match expectText ", '".toList s4 with
          | none => none
          | some s5 =>
            match readStringLiteral s5 with
            | none => none
            | some (gender, s6) =>
              match expectText ", ".toList s6 with
              | none => none
              | some s7 =>
                match readIntLiteral s7 with
                | none => none
                | some (age, s8) =>
                  if s8 = ");".toList then some ⟨fullName, birthDate, gender, age⟩ else none

/-- ASCII lower case, the only case folding of SQLite's LIKE. -/
def asciiLower (c : Char) : Char :=
  if 65 ≤ c.toNat ∧ c.toNat ≤ 90 then Char.ofNat (c.toNat + 32) else c

/-- True when `f` holds of some suffix of the text. -/
def anySuffix (f : Text → Bool) : Text → Bool
  | [] => f []
  | c :: t => f (c :: t) || anySuffix f t

/-- The operator `text LIKE pattern` of SQLite with its default settings: `%` stands for any
run of characters, `_` for any one character, and every other character for itself, where
ASCII letters match without regard to case. -/
def likeMatch : Text → Text → Bool
  | [], t => t.isEmpty
  | p :: ps, t =>
    if p = '%' then anySuffix (likeMatch ps) t
    else
      match t with
      | [] => false
      | c :: t1 => (p == '_' || asciiLower p == asciiLower c) && likeMatch ps t1

/-- The WHERE clause `GENDER = 'Male' AND FULLNAME LIKE 'F%'`; `=` compares texts exactly
(collation BINARY). -/
def whereCriteria (r : Row) : Bool :=
  decide (r.gender = "Male".toList) && likeMatch "F%".toList r.fullName

/-- Collation BINARY on texts: the order of `memcmp` on the UTF-8 bytes, a proper initial
segment first; on UTF-8 this is the lexicographic order of the code points. -/
def textLe : Text → Text → Bool
  | [], _ => true
  | _ :: _, [] => false
  | a :: s, b :: t => decide (a.toNat < b.toNat) || (decide (a.toNat = b.toNat) && textLe s t)

/-- The order of `ORDER BY FULLNAME`. -/
def fullNameLe (a b : Row) : Prop := textLe a.fullName b.fullName = true

instance : DecidableRel fullNameLe := fun _ _ => inferInstanceAs (Decidable (_ = true))

/-- The rows in the order of `ORDER BY FULLNAME`.  SQL does not say which of two rows with
the same name comes first; the model keeps such rows in ROWID order. -/
def orderByFullName (rows : List Row) : List Row := rows.insertionSort fullNameLe

/-- The `argv` of a result row of `SELECT *`: the five columns as text. -/
def rowArgv (r : Row) : List Text :=
  [natToText r.id, r.fullName, r.birthDate, r.gender, to_string r.age.val]

/-- The message of SQLite for a statement on the missing table. -/
def noSuchTable : Text := "no such table: EMPLOYEE".toList

/-- The characters SQLite takes as letters of an identifier: ASCII letters and digits, the
underscore, the dollar sign and every character beyond ASCII. -/
def isIdChar (c : Char) : Bool :=
  (decide (65 ≤ c.toNat) && decide (c.toNat ≤ 90)) || (decide (97 ≤ c.toNat) && decide (c.toNat ≤ 122))
    || isDigit c || c == '_' || c == '$' || decide (128 ≤ c.toNat)

/-- An ASCII letter or an underscore, with which a keyword or plain identifier begins. -/
def isIdStart (c : Char) : Bool :=
  (decide (65 ≤ c.toNat) && decide (c.toNat ≤ 90)) || (decide (97 ≤ c.toNat) && decide (c.toNat ≤ 122))
    || c == '_'

/-- The keywords that may follow an expression and carry it on, in lower case.  No other
word may stand directly behind a value of a VALUES list. -/
def operatorKeywords : List Text :=
  ["and".toList, "or".toList, "not".toList, "is".toList, "in".toList, "like".toList,
    "glob".toList, "regexp".toList, "match".toList, "between".toList, "collate".toList,
    "isnull".toList, "notnull".toList]

/-- Looks at what follows a string literal of the VALUES list.  When it is, after blanks, a
word that is no operator keyword (and not the `x` that opens a blob literal), the SQL parser
stops at this word with a syntax error; the result is that word. -/
def strayIdentifier (s : Text) : Option Text :=
  match s.dropWhile (fun c => c == ' ') with
  | [] => none
  | c :: t =>
    if isIdStart c then
      let word := (c :: t).takeWhile isIdChar
      let rest := (c :: t).dropWhile isIdChar
      if (word = ['x'] ∨ word = ['X']) ∧ rest.head? = some quote then none
      else if word.map asciiLower ∈ operatorKeywords then none
      else some word
    else none

/-- Finds the syntax error of an INSERT statement of `insertEmployee` in which a quote
character inside a field has closed a string literal early, as in
`... VALUES ('O'Neil', ...`: the word at which the parser stops.  The statement is read as
far as the first string literal that is followed by such a word. -/
def syntaxErrorWord (sql : Text) : Option Text :=
  match expectText insertHead sql with
  | none => none
  | some s1 =>
    match readStringLiteral s1 with
    | none => none
    | some (_, s2) =>
      match strayIdentifier s2 with
      | some word => some word
      | none =>
        match expectText ", '".toList s2 with
        | none => none
        | some s3 =>
          match readStringLiteral s3 with
          | none => none
          | some (_, s4) =>
            match strayIdentifier s4 with
            | some word => some word
            | none =>
              match expectText ", '".toList s4 with
              | none => none
              | some s5 =>
                match readStringLiteral s5 with
                | none => none
                | some (_, s6) => strayIdentifier s6

/-- The message of SQLite for a syntax error at the given word. -/
def nearSyntaxError (word : Text) : Text :=
  "near \"".toList ++ word ++ "\": syntax error".toList

/-- The function `sqlite3_exec` on the statements of this program: the three fixed
statements, a one-row INSERT of the shape `parseInsert` recognises, and an INSERT with the
syntax error `syntaxErrorWord` finds, which the engine rejects with SQLITE_ERROR before it
touches the database.  For every other statement text the result is `none`: the model says
nothing about such a text. -/
def sqlite3_exec (db : Db) (sql : Text) : Option ExecOut :=
  let db1 : Db := { db with trace := db.trace ++ [sql] }
  if sql = createTableSql then
    some ⟨0, [], [], { db1 with table := some (db.table.getD []) }⟩
  else if sql = selectAllSql then
    match db.table with
    | none => some ⟨1, noSuchTable, [], db1⟩
    | some rows => some ⟨0, [], (orderByFullName rows).map rowArgv, db1⟩
  else if sql = selectCriteriaSql then
    match db.table with
    | none => some ⟨1, noSuchTable, [], db1⟩
    | some rows => some ⟨0, [], (rows.filter whereCriteria).map rowArgv, db1⟩
  else
    match parseInsert sql with
    | none =>
      match syntaxErrorWord sql with
      | none => none
      | some word => some ⟨1, nearSyntaxError word, [], db1⟩
    | some v =>
      match db.table with
      | none => some ⟨1, noSuchTable, [], db1⟩
      | some rows =>
        some ⟨0, [], [],
          { db1 with
            table := some (rows ++ [⟨db.seq + 1, v.fullName, v.birthDate, v.gender, v.age⟩]),
            seq := db.seq + 1 }⟩

/-! ## The class Database -/

/-- How a call ends: it returns a value, it throws an exception carrying the text `what`, or
the engine was given a statement outside the model.  The first two carry the database state
the call leaves. -/
inductive Outcome (α : Type) where
  | ok (value : α) (db : Db)
  | throws (what : Text) (db : Db)
  | outside
deriving DecidableEq

/-- The text of the exception the methods throw for a failed statement. -/
def sqlError (errMsg : Text) : Text := "SQL error: ".toList ++ errMsg

/-- The method `Database::createTable`. -/
def createTable (db : Db) : Outcome Unit :=
  match sqlite3_exec db createTableSql with
  | none => .outside
  | some r => if r.rc ≠ 0 then .throws (sqlError r.errMsg) r.db else .ok () r.db

/-- The statement text that `insertEmployee` builds by concatenation. -/
def insertSql (employee : Employee) : Text :=
  insertHead ++ employee.fullName ++ "', '".toList ++ employee.birthDate ++ "', '".toList
    ++ employee.gender ++ "', ".toList ++ to_string employee.age.val ++ ");".toList

/-- The method `Database::insertEmployee`. -/
def insertEmployee (db : Db) (employee : Employee) : Outcome Unit :=
  match sqlite3_exec db (insertSql employee) with
  | none => .outside
  | some r => if r.rc ≠ 0 then .throws (sqlError r.errMsg) r.db else .ok () r.db

/-- The function `Database::callback`: reads columns 1 to 4 of the row and appends the
employee to the vector; `std::stoi` may throw. -/
def callback (employees : List Employee) (argv : List Text) : Except Text (List Employee) :=
  let fullName := argv.getD 1 []
  let birthDate := argv.getD 2 []
  let gender := argv.getD 3 []
  match stoi (argv.getD 4 []) with
  | .error what => .error what
  | .ok age => .ok (employees ++ [⟨fullName, birthDate, gender, age⟩])

/-- The calls of the callback that `sqlite3_exec` makes, one per result row. -/
def runCallback : List (List Text) → List Employee → Except Text (List Employee)
  | [], employees => .ok employees
  | argv :: rest, employees =>
    match callback employees argv with
    | .error what => .error what
    | .ok employees1 => runCallback rest employees1

/-- The common body of the two queries: run the statement with the callback. -/
def query (db : Db) (sql : Text) : Outcome (List Employee) :=
  match sqlite3_exec db sql with
  | none => .outside
  | some r =>
    match runCallback r.rows [] with
    | .error what => .throws what r.db
    | .ok employees =>
      if r.rc ≠ 0 then .throws (sqlError r.errMsg) r.db else .ok employees r.db

/-- The method `Database::getAllEmployees`. -/
def getAllEmployees (db : Db) : Outcome (List Employee) := query db selectAllSql

/-- The method `Database::insertMultipleEmployees`: the loop stops at the first insert that
throws. -/
def insertMultipleEmployees (db : Db) : List Employee → Outcome Unit
  | [] => .ok () db
  | employee :: rest =>
    match insertEmployee db employee with
    | .ok _ db1 => insertMultipleEmployees db1 rest
    | .throws what db1 => .throws what db1
    | .outside => .outside

/-- The method `Database::getEmployeesByCriteria`. -/
def getEmployeesByCriteria (db : Db) : Outcome (List Employee) := query db selectCriteriaSql

/-! ## The modes and main -/

/-- What the program reads from its surroundings. -/
structure Env where
  /-- The local time zone of the host: by how much its time is ahead of UTC. -/
  utcOffset : Zone
  /-- The value `std::time(nullptr)` returns at its k-th call (k = 0, 1, ...). -/
  clock : Nat → Int
  /-- The message of `sqlite3_errmsg` when `sqlite3_open` fails, `none` when it succeeds. -/
  openError : Option Text
  /-- The text `operator<<` prints for the duration measured in mode 5. -/
  elapsed : Text

/-- The line one employee is printed as (without the line end). -/
def employeeLine (employee : Employee) : Text :=
  employee.fullName ++ ", ".toList ++ employee.birthDate ++ ", ".toList ++ employee.gender
    ++ ", Возраст: ".toList ++ to_string employee.age.val

/-- The loop that prints the employees, one line each. -/
def printEmployees : List Employee → Text
  | [] => []
  | employee :: rest => employeeLine employee ++ ['\n'] ++ printEmployees rest

/-- The end of a mode after its database call: when the call returns, the mode prints the
text `out` of the returned value; when it throws, nothing is printed and the exception goes
on to the caller. -/
def andPrint {α : Type} (out : α → Text) : Outcome α → Outcome Text
  | .ok value db => .ok (out value) db
  | .throws what db => .throws what db
  | .outside => .outside

/-- The function `runMode1`; the value is the text written to `std::cout`. -/
def runMode1 (db : Db) : Outcome Text :=
  andPrint (fun _ => "Таблица была создана.\n".toList) (createTable db)

/-- The function `runMode2`. -/
def runMode2 (env : Env) (db : Db) (fullName birthDate gender : Text) : Outcome Text :=
  let age := calculateAge env.utcOffset (env.clock 0) birthDate
  let employee : Employee := ⟨fullName, birthDate, gender, age⟩
  andPrint (fun _ => "Сотрудник был успешно добавлен.\n".toList) (insertEmployee db employee)

/-- The function `runMode3`. -/
def runMode3 (db : Db) : Outcome Text :=
  andPrint printEmployees (getAllEmployees db)

/-- The record the first loop of `runMode4` makes at index `i`. -/
def nameEmployee (env : Env) (i : Nat) : Employee :=
  let gender := if i % 2 = 0 then "Male".toList else "Female".toList
  let birthDate := "1990-01-01".toList
  let age := calculateAge env.utcOffset (env.clock i) birthDate
  ⟨"Name".toList ++ to_string (i : Int), birthDate, gender, age⟩

/-- The record the second loop of `runMode4` makes at index `i`. -/
def fEmployee (env : Env) (i : Nat) : Employee :=
  let birthDate := "1990-01-01".toList
  let age := calculateAge env.utcOffset (env.clock (1000000 + i)) birthDate
  ⟨"F".toList ++ to_string (i : Int), birthDate, "Male".toList, age⟩

/-- The vector `employees` that `runMode4` builds with its two loops; the k-th call of
`calculateAge` reads the clock for the k-th time.  (Marked irreducible so that no proof step
tries to compute the million records.) -/
@[irreducible]
def mode4Employees (env : Env) : List Employee :=
  let employees : List Employee := []
  let employees := (List.range 1000000).foldl (fun es i => es ++ [nameEmployee env i]) employees
  (List.range 100).foldl (fun es i => es ++ [fEmployee env i]) employees

/-- The function `runMode4`. -/
def runMode4 (env : Env) (db : Db) : Outcome Text :=
  andPrint (fun _ => "1000100 сотрудников были успешно добавлены.\n".toList)
    (insertMultipleEmployees db (mode4Employees env))

/-- The function `runMode5`. -/
def runMode5 (env : Env) (db : Db) : Outcome Text :=
  andPrint (fun employees => "Запрос выполнен за ".toList ++ env.elapsed ++ " секунд.\n".toList
      ++ printEmployees employees) (getEmployeesByCriteria db)

/-- What a run of the program leaves: the two output streams, the exit status and the
database. -/
structure Exit where
  stdout : Text
  stderr : Text
  status : Int
  db : Db
deriving DecidableEq

/-- The handler `catch (const std::exception& e)` of `main`. -/
def caught (what : Text) (db : Db) : Exit :=
  ⟨[], "Error: ".toList ++ what ++ ['\n'], 1, db⟩

/-- The end of `main` after a mode has run: status 0, or the handler. -/
def finish : Outcome Text → Option Exit
  | .ok out db => some ⟨out, [], 0, db⟩
  | .throws what db => some (caught what db)
  | .outside => none

/-- The function `main`; `argv` holds the program name and the arguments, so `argc` is its
length.  The result is `none` when the engine was given a statement outside the model. -/
def main (env : Env) (argv : List Text) (db : Db) : Option Exit :=
  if argv.length < 2 then
    some ⟨[], "Invalid arguments.\n".toList, 1, db⟩
  else
    match env.openError with
    | some msg => some (caught ("Не удается открыть базу данных: ".toList ++ msg) db)
    | none =>
      match stoi (argv.getD 1 []) with
      | .error what => some (caught what db)
      | .ok mode =>
        if mode.val = 1 then finish (runMode1 db)
        else if mode.val = 2 then
          if argv.length < 5 then
            some ⟨[], "Invalid arguments for mode 2.\n".toList, 1, db⟩
          else finish (runMode2 env db (argv.getD 2 []) (argv.getD 3 []) (argv.getD 4 []))
        else if mode.val = 3 then finish (runMode3 db)
        else if mode.val = 4 then finish (runMode4 env db)
        else if mode.val = 5 then finish (runMode5 env db)
        else some ⟨[], "Unknown mode.\n".toList, 1, db⟩

/-! ## Calendar dates

The vocabulary of the statement about `calculateAge`: valid dates, their order, their text
YYYY-MM-DD and the instant of their local midnight. -/

/-- A calendar date given by year, month and day numbers. -/
structure Date where
  year : Nat
  month : Nat
  day : Nat
deriving DecidableEq

/-- The leap years of the Gregorian calendar. -/
def isLeap (y : Nat) : Prop := (y % 4 = 0 ∧ y % 100 ≠ 0) ∨ y % 400 = 0

instance (y : Nat) : Decidable (isLeap y) := by unfold isLeap; infer_instance

/-- The number of days of month `m` in year `y`. -/
def daysInMonth (y m : Nat) : Nat :=
  if m = 2 then (if isLeap y then 29 else 28)
  else if m = 4 ∨ m = 6 ∨ m = 9 ∨ m = 11 then 30 else 31

/-- A valid date of the form YYYY-MM-DD: a year of four digits, a month 1..12 and a day that
exists in that month. -/
def Date.valid (d : Date) : Prop :=
  d.year ≤ 9999 ∧ 1 ≤ d.month ∧ d.month ≤ 12 ∧ 1 ≤ d.day ∧ d.day ≤ daysInMonth d.year d.month

instance (d : Date) : Decidable d.valid := by unfold Date.valid; infer_instance

/-- The order of dates: `a` is the same day as `b` or an earlier one. -/
def Date.le (a b : Date) : Prop :=
  a.year < b.year ∨ (a.year = b.year ∧ (a.month < b.month ∨ (a.month = b.month ∧ a.day ≤ b.day)))

instance (a b : Date) : Decidable (a.le b) := by unfold Date.le; infer_instance

/-- The text YYYY-MM-DD of a date: four digits, two digits and two digits. -/
def Date.text (d : Date) : Text :=
  [digitChar (d.year / 1000 % 10), digitChar (d.year / 100 % 10), digitChar (d.year / 10 % 10),
    digitChar (d.year % 10), '-', digitChar (d.month / 10 % 10), digitChar (d.month % 10), '-',
    digitChar (d.day / 10 % 10), digitChar (d.day % 10)]

/-- The number of days in the years 0 to `y - 1`, counted year by year. -/
def daysBeforeYear : Nat → Nat
  | 0 => 0
  | y + 1 => daysBeforeYear y + (if isLeap y then 366 else 365)

/-- The number of days of year `y` that lie before its month `m`, counted month by month. -/
def daysBeforeMonth (y : Nat) : Nat → Nat
  | 0 => 0
  | 1 => 0
  | m + 2 => daysBeforeMonth y (m + 1) + daysInMonth y (m + 1)

/-- The number of days from 1970-01-01 to the date, by counting the days of the calendar. -/
def Date.dayNumber (d : Date) : Int :=
  ((daysBeforeYear d.year + daysBeforeMonth d.year d.month + d.day : Nat) : Int) - 1
    - (daysBeforeYear 1970 : Nat)

/-- The instant, in seconds from the epoch, at which the date begins in the zone: its local
midnight. -/
def Date.midnight (zone : Zone) (d : Date) : Int :=
  d.dayNumber * 86400 - zone.offset (d.dayNumber * 86400)

/-- The rows that successive inserts of the values `vs` append when the largest ID given out
so far is `seq`. -/
def rowsFrom : Nat → List InsertValues → List Row
  | _, [] => []
  | seq, v :: vs => ⟨seq + 1, v.fullName, v.birthDate, v.gender, v.age⟩ :: rowsFrom (seq + 1) vs

/-- Day number of 1 March of year `y1` (counted as in `daysFromCivil`, before the shift by
719468). -/
def yearStart (y1 : Int) : Int :=
  y1 / 400 * 146097 + (y1 - y1 / 400 * 400) * 365 + (y1 - y1 / 400 * 400) / 4
    - (y1 - y1 / 400 * 400) / 100

/-- The year counted from March in which month `m` of year `y` lies. -/
def marchYear (y m : Int) : Int := if m ≤ 2 then y - 1 else y

/-- The number of days from 1 March to day `d` of month `m`. -/
def dayOfMarchYear (m d : Int) : Int :=
  (153 * (if m ≤ 2 then m + 9 else m - 3) + 2) / 5 + d - 1

/-! ## Decimal numerals -/

theorem isDigit_digitChar (d : Nat) (h : d < 10) : isDigit (digitChar d) = true := by
  interval_cases d <;> decide

theorem digitVal_digitChar (d : Nat) (h : d < 10) : digitVal (digitChar d) = d := by
  interval_cases d <;> decide

theorem digitChar_ne_quote (d : Nat) (h : d < 10) : digitChar d ≠ quote := by
  interval_cases d <;> decide

theorem isSpace_digitChar (d : Nat) (h : d < 10) : isSpace (digitChar d) = false := by
  interval_cases d <;> decide

theorem digitChar_ne_minus (d : Nat) (h : d < 10) : digitChar d ≠ '-' := by
  interval_cases d <;> decide

theorem digitChar_ne_plus (d : Nat) (h : d < 10) : digitChar d ≠ '+' := by
  interval_cases d <;> decide

theorem digitsAux_small (fuel n : Nat) (acc : Text) (h : n < 10) :
    digitsAux (fuel + 1) n acc = digitChar n :: acc := by
  simp [digitsAux, h]

theorem digitsAux_step (fuel n : Nat) (acc : Text) (h : 10 ≤ n) :
    digitsAux (fuel + 1) n acc = digitsAux fuel (n / 10) (digitChar (n % 10) :: acc) := by
  have : ¬ n < 10 := by omega
  simp [digitsAux, this]

/-- With enough fuel the digits do not depend on the fuel and the accumulator is a suffix. -/
theorem digitsAux_eq (n : Nat) : ∀ (fuel : Nat) (acc : Text), n < fuel →
    digitsAux fuel n acc = natToText n ++ acc := by
  induction n using Nat.strong_induction_on with
  | _ n ih =>
    intro fuel acc h
    obtain ⟨f, rfl⟩ : ∃ f, fuel = f + 1 := ⟨fuel - 1, by omega⟩
    by_cases hn : n < 10
    · rw [digitsAux_small _ _ _ hn, natToText, digitsAux_small _ _ _ hn]; rfl
    · have h10 : 10 ≤ n := by omega
      rw [digitsAux_step _ _ _ h10, natToText, digitsAux_step _ _ _ h10,
        ih (n / 10) (by omega) f _ (by omega), ih (n / 10) (by omega) n _ (by omega),
        List.append_assoc]
      rfl

theorem natToText_small (n : Nat) (h : n < 10) : natToText n = [digitChar n] := by
  rw [natToText, digitsAux_small _ _ _ h]

theorem natToText_step (n : Nat) (h : 10 ≤ n) :
    natToText n = natToText (n / 10) ++ [digitChar (n % 10)] := by
  rw [natToText, digitsAux_step _ _ _ h, digitsAux_eq _ _ _ (by omega)]

/-- Induction along the decimal digits. -/
theorem decimal_induction (P : Nat → Prop) (small : ∀ n, n < 10 → P n)
    (step : ∀ n, 10 ≤ n → P (n / 10) → P n) : ∀ n, P n := by
  intro n
  induction n using Nat.strong_induction_on with
  | _ n ih =>
    by_cases h : n < 10
    · exact small n h
    · exact step n (by omega) (ih (n / 10) (by omega))

theorem readNat_natToText (n : Nat) : ∀ (acc : Nat) (rest : Text),
    ∃ k, readNat acc (natToText n ++ rest) = readNat (acc * 10 ^ k + n) rest := by
  induction n using decimal_induction with
  | small n h =>
    intro acc rest
    refine ⟨1, ?_⟩
    rw [natToText_small n h]
    simp [readNat, isDigit_digitChar n h, digitVal_digitChar n h]
  | step n h ih =>
    intro acc rest
    obtain ⟨k, hk⟩ := ih acc (digitChar (n % 10) :: rest)
    refine ⟨k + 1, ?_⟩
    have hd : n % 10 < 10 := Nat.mod_lt _ (by decide)
    rw [natToText_step n h, List.append_assoc, List.singleton_append, hk]
    simp only [readNat, isDigit_digitChar _ hd, digitVal_digitChar _ hd, if_true]
    congr 1
    rw [pow_succ]
    have := Nat.div_add_mod n 10
    nlinarith [this]

theorem readNat_stop (acc : Nat) (rest : Text) (h : startsWithDigit rest = false) :
    readNat acc rest = (acc, rest) := by
  cases rest with
  | nil => rfl
  | cons c t =>
    simp only [startsWithDigit] at h
    simp [readNat, h]

theorem readNat_zero_natToText (n : Nat) (rest : Text) (h : startsWithDigit rest = false) :
    readNat 0 (natToText n ++ rest) = (n, rest) := by
  obtain ⟨k, hk⟩ := readNat_natToText n 0 rest
  rw [hk, readNat_stop _ _ h]
  simp

theorem natToText_head (n : Nat) : ∃ d t, d < 10 ∧ natToText n = digitChar d :: t := by
  induction n using decimal_induction with
  | small n h => exact ⟨n, [], h, natToText_small n h⟩
  | step n h ih =>
    obtain ⟨d, t, hd, ht⟩ := ih
    exact ⟨d, t ++ [digitChar (n % 10)], hd, by rw [natToText_step n h, ht]; rfl⟩

theorem natToText_digits (n : Nat) : ∀ c ∈ natToText n, ∃ d, d < 10 ∧ c = digitChar d := by
  induction n using decimal_induction with
  | small n h =>
    intro c hc
    rw [natToText_small n h] at hc
    exact ⟨n, h, by simpa using hc⟩
  | step n h ih =>
    intro c hc
    rw [natToText_step n h, List.mem_append] at hc
    rcases hc with hc | hc
    · exact ih c hc
    · exact ⟨n % 10, Nat.mod_lt _ (by decide), by simpa using hc⟩

theorem stoi_natToText (m : Nat) (h : -2147483648 ≤ (m : Int) ∧ (m : Int) ≤ 2147483647) :
    stoi (natToText m) = .ok ⟨(m : Int), h⟩ := by
  have hr := readNat_zero_natToText m [] rfl
  rw [List.append_nil] at hr
  obtain ⟨d, t, hd, ht⟩ := natToText_head m
  rw [ht] at hr ⊢
  have h1 := isSpace_digitChar d hd
  have h2 := digitChar_ne_minus d hd
  have h3 := digitChar_ne_plus d hd
  have h4 := isDigit_digitChar d hd
  simp [stoi, List.dropWhile, h1, h2, h3, h4, startsWithDigit, hr, h]

theorem stoi_neg_natToText (m : Nat) (h : -2147483648 ≤ -(m : Int) ∧ -(m : Int) ≤ 2147483647) :
    stoi ('-' :: natToText m) = .ok ⟨-(m : Int), h⟩ := by
  have hr := readNat_zero_natToText m [] rfl
  rw [List.append_nil] at hr
  obtain ⟨d, t, hd, ht⟩ := natToText_head m
  rw [ht] at hr ⊢
  have h4 := isDigit_digitChar d hd
  have hsp : isSpace '-' = false := by decide
  simp [stoi, List.dropWhile, hsp, h4, startsWithDigit, hr, h]

/-- Reading back the decimal text of an `int` gives the `int`. -/
theorem stoi_to_string (a : CInt) : stoi (to_string a.val) = .ok a := by
  obtain ⟨v, hv⟩ := a
  by_cases hneg : v < 0
  · have e : v = -((v.natAbs : Nat) : Int) := by omega
    simp only [to_string, hneg, if_true]
    have := stoi_neg_natToText v.natAbs (by omega)
    rw [this]
    congr 1
    exact Subtype.ext e.symm
  · have e : v = ((v.toNat : Nat) : Int) := by omega
    simp only [to_string, hneg, if_false]
    have := stoi_natToText v.toNat (by omega)
    rw [this]
    congr 1
    exact Subtype.ext e.symm

theorem readIntLiteral_to_string (a : CInt) (rest : Text) (h : startsWithDigit rest = false) :
    readIntLiteral (to_string a.val ++ rest) = some (a, rest) := by
  obtain ⟨v, hv⟩ := a
  by_cases hneg : v < 0
  · have e : -((v.natAbs : Nat) : Int) = v := by omega
    have hr := readNat_zero_natToText v.natAbs rest h
    obtain ⟨d, t, hd, ht⟩ := natToText_head v.natAbs
    have h4 := isDigit_digitChar d hd
    simp only [to_string, hneg, if_true]
    rw [ht] at hr ⊢
    simp only [List.cons_append] at hr ⊢
    simp only [readIntLiteral, List.head?, List.tail, beq_self_eq_true, if_true, startsWithDigit,
      h4, hr]
    rw [dif_pos (by omega)]
    simp only [e]
  · have e : ((v.toNat : Nat) : Int) = v := by omega
    have hr := readNat_zero_natToText v.toNat rest h
    obtain ⟨d, t, hd, ht⟩ := natToText_head v.toNat
    have h2 := digitChar_ne_minus d hd
    have h4 := isDigit_digitChar d hd
    simp only [to_string, hneg, if_false]
    rw [ht] at hr ⊢
    simp only [List.cons_append] at hr ⊢
    have hb : (some (digitChar d) == some '-') = false := by simp [h2]
    simp only [readIntLiteral, List.head?, hb, if_false, Bool.false_eq_true, startsWithDigit,
      h4, hr, if_true]
    rw [dif_pos (by omega)]
    simp [e]

theorem quote_not_mem_natToText (n : Nat) : quote ∉ natToText n := by
  intro h
  obtain ⟨d, hd, e⟩ := natToText_digits n quote h
  exact digitChar_ne_quote d hd e.symm

theorem quote_not_mem_to_string (n : Int) : quote ∉ to_string n := by
  unfold to_string
  split
  · intro h
    rcases List.mem_cons.mp h with h | h
    · exact absurd h (by decide)
    · exact quote_not_mem_natToText _ h
  · exact quote_not_mem_natToText _

/-! ## The INSERT statement -/

theorem expectText_append (p s : Text) : expectText p (p ++ s) = some s := by
  induction p with
  | nil => cases s <;> rfl
  | cons c p ih => simp [expectText, ih]

theorem readStringLiteral_cons_ne (c : Char) (rest : Text) (hc : c ≠ quote) :
    readStringLiteral (c :: rest) =
      (readStringLiteral rest).map (fun p => (c :: p.1, p.2)) := by
  conv_lhs => rw [readStringLiteral.eq_def]
  simp only [hc, if_false]
  rcases readStringLiteral rest with _ | ⟨v, r⟩ <;> rfl

theorem readStringLiteral_end (d : Char) (rest : Text) (hd : d ≠ quote) :
    readStringLiteral (quote :: d :: rest) = some ([], d :: rest) := by
  conv_lhs => rw [readStringLiteral.eq_def]
  simp [hd]

theorem readStringLiteral_closed (t : Text) (d : Char) (rest : Text) (ht : quote ∉ t)
    (hd : d ≠ quote) : readStringLiteral (t ++ quote :: d :: rest) = some (t, d :: rest) := by
  induction t with
  | nil => exact readStringLiteral_end d rest hd
  | cons c t ih =>
    have hc : c ≠ quote := fun h => ht (by simp [h])
    have ht2 : quote ∉ t := fun h => ht (by simp [h])
    rw [List.cons_append, readStringLiteral_cons_ne _ _ hc, ih ht2]
    rfl

/-- The statement built for an employee without quote characters denotes the employee. -/
theorem parseInsert_insertSql (e : Employee) (h1 : quote ∉ e.fullName)
    (h2 : quote ∉ e.birthDate) (h3 : quote ∉ e.gender) :
    parseInsert (insertSql e) = some ⟨e.fullName, e.birthDate, e.gender, e.age⟩ := by
  have q1 : "', '".toList = [quote, ',', ' ', quote] := by decide
  have q2 : "', ".toList = [quote, ',', ' '] := by decide
  have q3 : ", '".toList = [',', ' ', quote] := by decide
  have q4 : ", ".toList = [',', ' '] := by decide
  have hc : (',' : Char) ≠ quote := by decide
  have hd : startsWithDigit ");".toList = false := by decide
  unfold parseInsert insertSql
  simp only [List.append_assoc, q1, q2, q3, q4, List.cons_append, List.nil_append]
  rw [expectText_append]
  simp only []
  rw [readStringLiteral_closed _ _ _ h1 hc]
  simp only [expectText, if_true]
  rw [readStringLiteral_closed _ _ _ h2 hc]
  simp only [expectText, if_true]
  rw [readStringLiteral_closed _ _ _ h3 hc]
  simp only [expectText, if_true]
  rw [readIntLiteral_to_string _ _ hd]
  simp

/-! ## The Database methods -/

theorem insertSql_head (e : Employee) : (insertSql e).head? = some 'I' := by
  have h : insertHead = 'I' :: insertHead.tail := by decide
  unfold insertSql
  rw [h]
  rfl

theorem insertSql_ne_createTableSql (e : Employee) : insertSql e ≠ createTableSql := by
  intro h
  have h1 := insertSql_head e
  rw [h] at h1
  exact absurd h1 (by decide)

theorem insertSql_ne_selectAllSql (e : Employee) : insertSql e ≠ selectAllSql := by
  intro h
  have h1 := insertSql_head e
  rw [h] at h1
  exact absurd h1 (by decide)

theorem insertSql_ne_selectCriteriaSql (e : Employee) : insertSql e ≠ selectCriteriaSql := by
  intro h
  have h1 := insertSql_head e
  rw [h] at h1
  exact absurd h1 (by decide)

/-- An insert of an employee without quote characters into the existing table appends the
employee as a new row. -/
theorem insertEmployee_ok (db : Db) (rows : List Row) (e : Employee) (ht : db.table = some rows)
    (h1 : quote ∉ e.fullName) (h2 : quote ∉ e.birthDate) (h3 : quote ∉ e.gender) :
    insertEmployee db e = .ok ()
      ⟨some (rows ++ [⟨db.seq + 1, e.fullName, e.birthDate, e.gender, e.age⟩]), db.seq + 1,
        db.trace ++ [insertSql e]⟩ := by
  simp [insertEmployee, sqlite3_exec, insertSql_ne_createTableSql, insertSql_ne_selectAllSql,
    insertSql_ne_selectCriteriaSql, parseInsert_insertSql e h1 h2 h3, ht]

/-- An insert into the missing table throws and changes nothing but the trace. -/
theorem insertEmployee_no_table (db : Db) (e : Employee) (ht : db.table = none)
    (h1 : quote ∉ e.fullName) (h2 : quote ∉ e.birthDate) (h3 : quote ∉ e.gender) :
    insertEmployee db e = .throws (sqlError noSuchTable)
      { db with trace := db.trace ++ [insertSql e] } := by
  simp [insertEmployee, sqlite3_exec, insertSql_ne_createTableSql, insertSql_ne_selectAllSql,
    insertSql_ne_selectCriteriaSql, parseInsert_insertSql e h1 h2 h3, ht]

theorem callback_rowArgv (acc : List Employee) (r : Row) :
    callback acc (rowArgv r) = .ok (acc ++ [r.employee]) := by
  simp [callback, rowArgv, stoi_to_string, Row.employee]

theorem runCallback_rows (rows : List Row) : ∀ acc : List Employee,
    runCallback (rows.map rowArgv) acc = .ok (acc ++ rows.map Row.employee) := by
  induction rows with
  | nil => intro acc; simp [runCallback]
  | cons r rows ih =>
    intro acc
    simp [runCallback, callback_rowArgv, ih]

theorem getAllEmployees_eq (db : Db) (rows : List Row) (ht : db.table = some rows) :
    getAllEmployees db = .ok ((orderByFullName rows).map Row.employee)
      { db with trace := db.trace ++ [selectAllSql] } := by
  have h1 : selectAllSql ≠ createTableSql := by decide
  simp [getAllEmployees, query, sqlite3_exec, h1, ht, runCallback_rows]

theorem getEmployeesByCriteria_eq (db : Db) (rows : List Row) (ht : db.table = some rows) :
    getEmployeesByCriteria db = .ok ((rows.filter whereCriteria).map Row.employee)
      { db with trace := db.trace ++ [selectCriteriaSql] } := by
  have h1 : selectCriteriaSql ≠ createTableSql := by decide
  have h2 : selectCriteriaSql ≠ selectAllSql := by decide
  simp [getEmployeesByCriteria, query, sqlite3_exec, h1, h2, ht, runCallback_rows]

/-- A batch of employees without quote characters is appended to the existing table in list
order, one row per employee. -/
theorem insertMultipleEmployees_ok (es : List Employee)
    (hq : ∀ e ∈ es, quote ∉ e.fullName ∧ quote ∉ e.birthDate ∧ quote ∉ e.gender) :
    ∀ (db : Db) (rows : List Row), db.table = some rows →
      ∃ db1 newRows, insertMultipleEmployees db es = .ok () db1 ∧
        db1.table = some (rows ++ newRows) ∧ newRows.map Row.employee = es := by
  induction es with
  | nil =>
    intro db rows ht
    exact ⟨db, [], rfl, by simpa using ht, rfl⟩
  | cons e es ih =>
    intro db rows ht
    obtain ⟨h1, h2, h3⟩ := hq e (List.mem_cons_self _ _)
    obtain ⟨db1, newRows, hrun, htab, hmap⟩ :=
      ih (fun x hx => hq x (List.mem_cons_of_mem _ hx))
        ⟨some (rows ++ [⟨db.seq + 1, e.fullName, e.birthDate, e.gender, e.age⟩]), db.seq + 1,
          db.trace ++ [insertSql e]⟩ _ rfl
    refine ⟨db1, ⟨db.seq + 1, e.fullName, e.birthDate, e.gender, e.age⟩ :: newRows, ?_, ?_, ?_⟩
    · simp only [insertMultipleEmployees, insertEmployee_ok db rows e ht h1 h2 h3, hrun]
    · rw [htab, List.append_assoc]; rfl
    · simp [hmap, Row.employee]

/-- An insert whose statement denotes the values `v` appends them as a new row of the
existing table. -/
theorem insertEmployee_values (db : Db) (rows : List Row) (e : Employee) (v : InsertValues)
    (ht : db.table = some rows) (hv : parseInsert (insertSql e) = some v) :
    insertEmployee db e = .ok ()
      ⟨some (rows ++ [⟨db.seq + 1, v.fullName, v.birthDate, v.gender, v.age⟩]), db.seq + 1,
        db.trace ++ [insertSql e]⟩ := by
  simp [insertEmployee, sqlite3_exec, insertSql_ne_createTableSql, insertSql_ne_selectAllSql,
    insertSql_ne_selectCriteriaSql, hv, ht]

/-- An insert that throws leaves the table and the ID counter as they were; the statement
is on record as executed. -/
theorem insertEmployee_throws (db db2 : Db) (e : Employee) (what : Text)
    (h : insertEmployee db e = .throws what db2) :
    db2 = ⟨db.table, db.seq, db.trace ++ [insertSql e]⟩ := by
  simp only [insertEmployee, sqlite3_exec, insertSql_ne_createTableSql, insertSql_ne_selectAllSql,
    insertSql_ne_selectCriteriaSql, if_false] at h
  cases hp : parseInsert (insertSql e) with
  | none =>
    rw [hp] at h
    cases hs : syntaxErrorWord (insertSql e) with
    | none => rw [hs] at h; simp at h
    | some word => rw [hs] at h; simp at h; exact h.2.symm
  | some v =>
    rw [hp] at h
    cases ht : db.table with
    | none => rw [ht] at h; simp at h; rw [← h.2]
    | some rows => rw [ht] at h; simp at h

theorem insertMultipleEmployees_append (pre rest : List Employee) : ∀ (db db1 : Db),
    insertMultipleEmployees db pre = .ok () db1 →
      insertMultipleEmployees db (pre ++ rest) = insertMultipleEmployees db1 rest := by
  induction pre with
  | nil =>
    intro db db1 h
    simp only [insertMultipleEmployees, Outcome.ok.injEq, true_and] at h
    rw [List.nil_append, h]
  | cons e pre ih =>
    intro db db1 h
    rw [List.cons_append]
    simp only [insertMultipleEmployees] at h ⊢
    cases hi : insertEmployee db e with
    | ok u dbm => rw [hi] at h; exact ih dbm db1 h
    | throws w dbm => rw [hi] at h; simp at h
    | outside => rw [hi] at h; simp at h

/-- The inserts of records whose statements denote the values `vs` all succeed on an existing
table and append one row per record, in list order. -/
theorem insertMultipleEmployees_values (pre : List Employee) : ∀ (vs : List InsertValues)
    (db : Db) (rows : List Row), db.table = some rows →
    pre.map (fun e => parseInsert (insertSql e)) = vs.map some →
    insertMultipleEmployees db pre = .ok ()
      ⟨some (rows ++ rowsFrom db.seq vs), db.seq + pre.length,
        db.trace ++ pre.map insertSql⟩ := by
  induction pre with
  | nil =>
    intro vs db rows ht h
    cases vs with
    | nil => simp [insertMultipleEmployees, rowsFrom, ← ht]
    | cons v vs => simp at h
  | cons e pre ih =>
    intro vs db rows ht h
    cases vs with
    | nil => simp at h
    | cons v vs =>
      simp only [List.map_cons, List.cons.injEq] at h
      obtain ⟨hv, hrest⟩ := h
      simp only [insertMultipleEmployees, insertEmployee_values db rows e v ht hv]
      rw [ih vs _ _ rfl hrest]
      simp [rowsFrom, Nat.add_assoc, Nat.add_comm 1]

theorem getD_take_five (argv : List Text) (i : Nat) (hi : i < 5) :
    (argv.take 5).getD i [] = argv.getD i [] := by
  simp only [List.getD_eq_getElem?_getD, List.getElem?_take, hi, if_true]

/-! ## LIKE and ORDER BY -/

theorem anySuffix_isEmpty (t : Text) : anySuffix (likeMatch []) t = true := by
  induction t with
  | nil => rfl
  | cons c t ih => simp [anySuffix, ih]

theorem asciiLower_eq_f (c : Char) : asciiLower c = 'f' ↔ c = 'F' ∨ c = 'f' := by
  constructor
  · intro h
    unfold asciiLower at h
    split at h
    · rename_i hr
      left
      have hc : c = Char.ofNat c.toNat := (Char.ofNat_toNat c).symm
      obtain ⟨h1, h2⟩ := hr
      generalize c.toNat = n at *
      interval_cases n <;> first | exact hc | exact absurd h (by decide)
    · exact Or.inr h
  · rintro (h | h) <;> subst h <;> decide

/-- The pattern `F%` matches the texts whose first character is `F` or `f`. -/
theorem likeMatch_F (t : Text) :
    likeMatch "F%".toList t = true ↔ t.head? = some 'F' ∨ t.head? = some 'f' := by
  have hp : "F%".toList = ['F', '%'] := by decide
  rw [hp]
  cases t with
  | nil => simp [likeMatch]
  | cons c t =>
    have h1 : asciiLower 'F' = 'f' := by decide
    have h2 := asciiLower_eq_f c
    have hs : anySuffix (fun x => List.isEmpty x) t = true := anySuffix_isEmpty t
    simp only [likeMatch, List.head?]
    simp [h1, hs]
    constructor
    · intro h; exact h2.mp h.symm
    · intro h; exact (h2.mpr h).symm

theorem textLe_refl (s : Text) : textLe s s = true := by
  induction s with
  | nil => rfl
  | cons a s ih => simp [textLe, ih]

theorem textLe_total (s t : Text) : textLe s t = true ∨ textLe t s = true := by
  induction s generalizing t with
  | nil => left; rfl
  | cons a s ih =>
    cases t with
    | nil => right; rfl
    | cons b t =>
      simp only [textLe, Bool.or_eq_true, Bool.and_eq_true, decide_eq_true_eq]
      rcases Nat.lt_trichotomy a.toNat b.toNat with h | h | h
      · exact Or.inl (Or.inl h)
      · rcases ih t with h2 | h2
        · exact Or.inl (Or.inr ⟨h, h2⟩)
        · exact Or.inr (Or.inr ⟨h.symm, h2⟩)
      · exact Or.inr (Or.inl h)

theorem textLe_trans (s t u : Text) (h1 : textLe s t = true) (h2 : textLe t u = true) :
    textLe s u = true := by
  induction s generalizing t u with
  | nil => rfl
  | cons a s ih =>
    cases t with
    | nil => simp [textLe] at h1
    | cons b t =>
      cases u with
      | nil => simp [textLe] at h2
      | cons c u =>
        simp only [textLe, Bool.or_eq_true, Bool.and_eq_true, decide_eq_true_eq] at h1 h2 ⊢
        rcases h1 with h1 | ⟨h1, h1t⟩
        · rcases h2 with h2 | ⟨h2, _⟩
          · exact Or.inl (by omega)
          · exact Or.inl (by omega)
        · rcases h2 with h2 | ⟨h2, h2t⟩
          · exact Or.inl (by omega)
          · exact Or.inr ⟨by omega, ih t u h1t h2t⟩

theorem orderByFullName_perm (rows : List Row) : (orderByFullName rows).Perm rows :=
  List.perm_insertionSort fullNameLe rows

theorem orderByFullName_sorted (rows : List Row) :
    (orderByFullName rows).Pairwise fullNameLe :=
  @List.sorted_insertionSort Row fullNameLe _
    ⟨fun a b => textLe_total a.fullName b.fullName⟩
    ⟨fun a b c h1 h2 => textLe_trans a.fullName b.fullName c.fullName h1 h2⟩ rows

/-! ## The records of mode 4 -/

theorem foldl_emplace_back {α β : Type} (f : α → β) (l : List α) : ∀ init : List β,
    l.foldl (fun es i => es ++ [f i]) init = init ++ l.map f := by
  induction l with
  | nil => intro init; simp
  | cons a l ih => intro init; simp [ih]

/-- The vector of mode 4 as two mapped ranges. -/
theorem mode4Employees_eq (env : Env) :
    mode4Employees env =
      (List.range 1000000).map (nameEmployee env) ++ (List.range 100).map (fEmployee env) := by
  unfold mode4Employees
  rw [foldl_emplace_back, foldl_emplace_back, List.nil_append]

theorem nameEmployee_quote_free (env : Env) (i : Nat) :
    quote ∉ (nameEmployee env i).fullName ∧ quote ∉ (nameEmployee env i).birthDate ∧
      quote ∉ (nameEmployee env i).gender := by
  have hb : quote ∉ "1990-01-01".toList := by decide
  refine ⟨?_, hb, ?_⟩
  · intro h
    rcases List.mem_append.mp h with h | h
    · exact absurd h (by decide)
    · exact quote_not_mem_to_string _ h
  · show quote ∉ (if i % 2 = 0 then "Male".toList else "Female".toList)
    split <;> decide

theorem fEmployee_quote_free (env : Env) (j : Nat) :
    quote ∉ (fEmployee env j).fullName ∧ quote ∉ (fEmployee env j).birthDate ∧
      quote ∉ (fEmployee env j).gender := by
  have hb : quote ∉ "1990-01-01".toList := by decide
  have hg : quote ∉ "Male".toList := by decide
  refine ⟨?_, hb, hg⟩
  intro h
  rcases List.mem_append.mp h with h | h
  · exact absurd h (by decide)
  · exact quote_not_mem_to_string _ h

theorem mode4Employees_quote_free (env : Env) :
    ∀ e ∈ mode4Employees env, quote ∉ e.fullName ∧ quote ∉ e.birthDate ∧ quote ∉ e.gender := by
  intro e he
  rw [mode4Employees_eq] at he
  rcases List.mem_append.mp he with h | h
  · obtain ⟨i, _, rfl⟩ := List.mem_map.mp h
    exact nameEmployee_quote_free env i
  · obtain ⟨j, _, rfl⟩ := List.mem_map.mp h
    exact fEmployee_quote_free env j

theorem whereCriteria_name (env : Env) (i : Nat) (r : Row)
    (h : r.employee = nameEmployee env i) : whereCriteria r = false := by
  have hn : r.fullName = "Name".toList ++ to_string (i : Int) := congrArg Employee.fullName h
  cases hl : likeMatch "F%".toList r.fullName
  · simp only [whereCriteria, hl, Bool.and_false]
  · have hh := (likeMatch_F _).mp hl
    have hN : ("Name".toList ++ to_string (i : Int)).head? = some 'N' := rfl
    rw [hn, hN] at hh
    exact absurd hh (by decide)

theorem whereCriteria_f (env : Env) (j : Nat) (r : Row)
    (h : r.employee = fEmployee env j) : whereCriteria r = true := by
  have hn : r.fullName = "F".toList ++ to_string (j : Int) := congrArg Employee.fullName h
  have hg : r.gender = "Male".toList := congrArg Employee.gender h
  have hl : likeMatch "F%".toList r.fullName = true := by
    rw [likeMatch_F, hn]; exact Or.inl rfl
  simp only [whereCriteria, hg, hl, decide_True, Bool.and_self]

/-- Of the rows that hold the records of mode 4 the criteria query selects those of the
second loop. -/
theorem filter_mode4_rows (env : Env) (newRows : List Row)
    (h : newRows.map Row.employee = mode4Employees env) :
    (newRows.filter whereCriteria).map Row.employee = (List.range 100).map (fEmployee env) := by
  rw [mode4Employees_eq] at h
  obtain ⟨r1, r2, rfl, h1, h2⟩ := List.map_eq_append_iff.mp h
  have e1 : r1.filter whereCriteria = [] := by
    rw [List.filter_eq_nil_iff]
    intro r hr
    have hm : r.employee ∈ r1.map Row.employee := List.mem_map_of_mem _ hr
    rw [h1] at hm
    obtain ⟨i, _, hi⟩ := List.mem_map.mp hm
    rw [whereCriteria_name env i r hi.symm]
    simp
  have e2 : r2.filter whereCriteria = r2 := by
    rw [List.filter_eq_self]
    intro r hr
    have hm : r.employee ∈ r2.map Row.employee := List.mem_map_of_mem _ hr
    rw [h2] at hm
    obtain ⟨j, _, hj⟩ := List.mem_map.mp hm
    exact whereCriteria_f env j r hj.symm
  rw [List.filter_append, e1, e2, List.nil_append, h2]

/-! ## Dates and the age -/

theorem daysFromCivil_eq (y m d : Int) :
    daysFromCivil y m d = yearStart (marchYear y m) + dayOfMarchYear m d - 719468 := by
  simp only [daysFromCivil, yearStart, marchYear, dayOfMarchYear]
  ring

theorem yearStart_step (y : Int) : yearStart y + 365 ≤ yearStart (y + 1) := by
  simp only [yearStart]
  omega

theorem yearStart_step_leap (y : Int)
    (h : ((y + 1) % 4 = 0 ∧ (y + 1) % 100 ≠ 0) ∨ (y + 1) % 400 = 0) :
    yearStart y + 366 ≤ yearStart (y + 1) := by
  simp only [yearStart]
  omega

theorem yearStart_mono (a b : Int) (h : a ≤ b) : yearStart a ≤ yearStart b := by
  obtain ⟨k, rfl⟩ : ∃ k : Nat, b = a + k := ⟨(b - a).toNat, by omega⟩
  induction k with
  | zero => simp
  | succ k ih =>
    have h1 := yearStart_step (a + k)
    have h2 := ih (by omega)
    have e : a + ((k + 1 : Nat) : Int) = a + (k : Int) + 1 := by push_cast; ring
    rw [e]
    omega

/-- A valid date lies inside its year counted from March. -/
theorem dayOfMarchYear_bounds (d : Date) (h : d.valid) :
    0 ≤ dayOfMarchYear d.month d.day ∧
      yearStart (marchYear d.year d.month) + dayOfMarchYear d.month d.day
        < yearStart (marchYear d.year d.month + 1) := by
  obtain ⟨y, m, dd⟩ := d
  simp only [Date.valid, daysInMonth] at h
  obtain ⟨-, h1, h2, h3, h4⟩ := h
  have s1 := yearStart_step (marchYear y m)
  by_cases hl : isLeap y
  · have s2 := yearStart_step_leap ((y : Int) - 1) (by unfold isLeap at hl; omega)
    simp only [hl, if_true] at h4
    simp only [marchYear, dayOfMarchYear] at s1 ⊢
    interval_cases m <;> simp at h4 s1 s2 ⊢ <;> omega
  · simp only [hl, if_false] at h4
    simp only [marchYear, dayOfMarchYear] at s1 ⊢
    interval_cases m <;> simp at h4 s1 ⊢ <;> omega

theorem daysFromCivil_mono (a b : Date) (ha : a.valid) (hb : b.valid) (h : a.le b) :
    daysFromCivil a.year a.month a.day ≤ daysFromCivil b.year b.month b.day := by
  have ba := dayOfMarchYear_bounds a ha
  have bb := dayOfMarchYear_bounds b hb
  rw [daysFromCivil_eq, daysFromCivil_eq]
  obtain ⟨ya, ma, da⟩ := a
  obtain ⟨yb, mb, db⟩ := b
  simp only [Date.valid, daysInMonth] at ha hb
  simp only [Date.le] at h
  obtain ⟨-, ha1, ha2, ha3, ha4⟩ := ha
  obtain ⟨-, hb1, hb2, hb3, hb4⟩ := hb
  simp only at ba bb ⊢
  rcases lt_trichotomy (marchYear ya ma) (marchYear yb mb) with hlt | heq | hgt
  · have hm := yearStart_mono (marchYear ya ma + 1) (marchYear yb mb) (by omega)
    omega
  · rw [heq]
    have : dayOfMarchYear ma da ≤ dayOfMarchYear mb db := by
      simp only [marchYear] at heq
      simp only [dayOfMarchYear]
      interval_cases ma <;> simp at ha4 heq ⊢ <;> split_ifs at * <;> omega
    omega
  · exfalso
    simp only [marchYear] at hgt
    split at hgt <;> split at hgt <;> omega

theorem daysFromCivil_bounds (d : Date) (h : d.valid) :
    -719528 ≤ daysFromCivil d.year d.month d.day ∧
      daysFromCivil d.year d.month d.day ≤ 2932896 := by
  obtain ⟨y, m, dd⟩ := d
  simp only [Date.valid, daysInMonth] at h
  obtain ⟨hy, h1, h2, h3, h4⟩ := h
  have hd : dd ≤ 31 := by split_ifs at h4 <;> omega
  simp only [daysFromCivil]
  split_ifs <;> omega

theorem isDigit_mod (n : Nat) : isDigit (digitChar (n % 10)) = true :=
  isDigit_digitChar _ (Nat.mod_lt _ (by decide))

theorem digitVal_mod (n : Nat) : digitVal (digitChar (n % 10)) = n % 10 :=
  digitVal_digitChar _ (Nat.mod_lt _ (by decide))

theorem extractNum_four (y : Nat) (hy : y ≤ 9999) (rest : Text) :
    extractNum 0 9999 4 (digitChar (y / 1000 % 10) :: digitChar (y / 100 % 10) ::
      digitChar (y / 10 % 10) :: digitChar (y % 10) :: rest) = some (y, rest) := by
  have ey : (((0 * 10 + y / 1000 % 10) * 10 + y / 100 % 10) * 10 + y / 10 % 10) * 10 + y % 10
      = y := by omega
  simp only [extractNum, startsWithDigit, extractDigits, isDigit_mod, digitVal_mod, if_true, ey]
  simp [hy]

theorem extractNum_two (lo hi n : Nat) (h1 : lo ≤ n) (h2 : n ≤ hi) (h3 : n ≤ 99) (rest : Text) :
    extractNum lo hi 2 (digitChar (n / 10 % 10) :: digitChar (n % 10) :: rest)
      = some (n, rest) := by
  have en : (0 * 10 + n / 10 % 10) * 10 + n % 10 = n := by omega
  simp only [extractNum, startsWithDigit, extractDigits, isDigit_mod, digitVal_mod, if_true, en]
  simp [h1, h2]

theorem dropWhile_isSpace_digit (n : Nat) (rest : Text) :
    (digitChar (n % 10) :: rest).dropWhile isSpace = digitChar (n % 10) :: rest := by
  have h := isSpace_digitChar (n % 10) (Nat.mod_lt _ (by decide))
  simp [List.dropWhile, h]

theorem skipOneSpace_digit (n : Nat) (rest : Text) :
    skipOneSpace (digitChar (n % 10) :: rest) = digitChar (n % 10) :: rest := by
  have h := isSpace_digitChar (n % 10) (Nat.mod_lt _ (by decide))
  simp [skipOneSpace, h]

theorem get_time_text (d : Date) (h : d.valid) :
    get_time d.text = ⟨0, 0, 0, (d.day : Int), (d.month : Int) - 1, (d.year : Int) - 1900⟩ := by
  obtain ⟨y, m, dd⟩ := d
  simp only [Date.valid, daysInMonth] at h
  obtain ⟨hy, h1, h2, h3, h4⟩ := h
  have hd : dd ≤ 31 := by split_ifs at h4 <;> omega
  simp only [get_time, Date.text]
  rw [dropWhile_isSpace_digit, extractNum_four y hy]
  simp only [expectChar, if_true]
  rw [extractNum_two 1 12 m h1 h2 (by omega)]
  simp only [expectChar, if_true]
  rw [skipOneSpace_digit, extractNum_two 1 31 dd h3 hd (by omega)]

/-- The number of days before year `y` in closed form. -/
theorem daysBeforeYear_eq (y : Nat) :
    daysBeforeYear y = 365 * y + (y + 3) / 4 - (y + 99) / 100 + (y + 399) / 400 := by
  induction y with
  | zero => rfl
  | succ y ih =>
    rw [daysBeforeYear, ih]
    unfold isLeap
    split_ifs <;> omega

theorem daysBeforeYear_epoch : daysBeforeYear 1970 = 719528 := by
  rw [daysBeforeYear_eq]

theorem daysBeforeMonth_eq (y m : Nat) (h1 : 1 ≤ m) (h2 : m ≤ 12) :
    daysBeforeMonth y m =
      (if m ≤ 2 then (m - 1) * 31 else (153 * (m - 3) + 2) / 5 + 59 + (if isLeap y then 1 else 0))
      := by
  interval_cases m <;> simp [daysBeforeMonth, daysInMonth] <;> split_ifs <;> rfl

/-- The day number that `mktime` computes is the number of days counted on the calendar. -/
theorem daysFromCivil_eq_dayNumber (d : Date) (h : d.valid) :
    daysFromCivil d.year d.month d.day = d.dayNumber := by
  obtain ⟨y, m, dd⟩ := d
  simp only [Date.valid] at h
  obtain ⟨-, h1, h2, h3, -⟩ := h
  simp only [Date.dayNumber, daysBeforeYear_epoch, daysBeforeYear_eq, daysBeforeMonth_eq y m h1 h2,
    daysFromCivil, isLeap]
  push_cast
  split_ifs <;> omega

theorem mktime_get_time (zone : Zone) (d : Date) (h : d.valid) :
    mktime zone (get_time d.text) = d.midnight zone := by
  rw [get_time_text d h, Date.midnight, ← daysFromCivil_eq_dayNumber d h]
  obtain ⟨y, m, dd⟩ := d
  simp only [Date.valid] at h
  obtain ⟨-, h1, h2, -, -⟩ := h
  have e1 : ((m : Int) - 1) / 12 = 0 := by omega
  have e2 : ((m : Int) - 1) % 12 + 1 = m := by omega
  have e3 : (y : Int) - 1900 + 1900 + 0 = y := by ring
  simp only [mktime, e1, e2, e3, zero_mul, add_zero]

/-- In a zone, a later local midnight is not an earlier instant. -/
theorem Zone.midnights_ordered (zone : Zone) (m n : Int) (h : m ≤ n) :
    m * 86400 - zone.offset (m * 86400) ≤ n * 86400 - zone.offset (n * 86400) := by
  obtain ⟨k, rfl⟩ : ∃ k : Nat, n = m + k := ⟨(n - m).toNat, by omega⟩
  induction k with
  | zero => simp
  | succ k ih =>
    have h1 := zone.ordered (m + k)
    have h2 := ih (by omega)
    have e : m + ((k + 1 : Nat) : Int) = m + (k : Int) + 1 := by push_cast; ring
    rw [e]
    omega

theorem dayNumber_mono (a b : Date) (ha : a.valid) (hb : b.valid) (h : a.le b) :
    a.dayNumber ≤ b.dayNumber := by
  rw [← daysFromCivil_eq_dayNumber a ha, ← daysFromCivil_eq_dayNumber b hb]
  exact daysFromCivil_mono a b ha hb h

/-- A later date begins at a later instant, or at the same one. -/
theorem midnight_mono (zone : Zone) (a b : Date) (ha : a.valid) (hb : b.valid) (h : a.le b) :
    a.midnight zone ≤ b.midnight zone :=
  zone.midnights_ordered _ _ (dayNumber_mono a b ha hb h)

theorem midnight_bounds (zone : Zone) (d : Date) (h : d.valid) :
    -719528 * 86400 - 90000 ≤ d.midnight zone ∧ d.midnight zone ≤ 2932896 * 86400 + 90000 := by
  have b := daysFromCivil_bounds d h
  rw [daysFromCivil_eq_dayNumber d h] at b
  have z := zone.bounded (d.dayNumber * 86400)
  simp only [Date.midnight]
  omega

/-- Truncated division by the seconds of a year, in terms of the rounded-down division. -/
theorem tdiv_year (a : Int) :
    (0 ≤ a → Int.tdiv a 31557600 = a / 31557600) ∧
      (a < 0 → Int.tdiv a 31557600 = -((-a) / 31557600)) := by
  constructor
  · intro h
    exact Int.tdiv_eq_ediv h (by decide)
  · intro h
    have e : a = -(-a) := by ring
    rw [e, Int.neg_tdiv, Int.tdiv_eq_ediv (by omega) (by decide)]
    simp

theorem tdiv_year_mono (a b : Int) (h : a ≤ b) : Int.tdiv a 31557600 ≤ Int.tdiv b 31557600 := by
  have ha := tdiv_year a
  have hb := tdiv_year b
  rcases lt_or_le a 0 with h1 | h1 <;> rcases lt_or_le b 0 with h2 | h2
  · rw [ha.2 h1, hb.2 h2]; omega
  · rw [ha.2 h1, hb.1 h2]; omega
  · omega
  · rw [ha.1 h1, hb.1 h2]; omega

theorem tdiv_year_nonneg (a : Int) (h : -31557600 < a) : 0 ≤ Int.tdiv a 31557600 := by
  have ha := tdiv_year a
  rcases lt_or_le a 0 with h1 | h1
  · rw [ha.2 h1]; omega
  · rw [ha.1 h1]; omega

theorem tdiv_year_range (a : Int) (h1 : -400000000000 < a) (h2 : a < 400000000000) :
    -2147483648 ≤ Int.tdiv a 31557600 ∧ Int.tdiv a 31557600 ≤ 2147483647 := by
  have ha := tdiv_year a
  rcases lt_or_le a 0 with h0 | h0
  · rw [ha.2 h0]; omega
  · rw [ha.1 h0]; omega

theorem static_cast_int_val (n : Int) (h : -2147483648 ≤ n ∧ n ≤ 2147483647) :
    (static_cast_int n).val = n := by
  simp [static_cast_int, h]

theorem calculateAge_text (zone : Zone) (now : Int) (d : Date) (h : d.valid)
    (h1 : -400000000000 < now - d.midnight zone) (h2 : now - d.midnight zone < 400000000000) :
    (calculateAge zone now d.text).val = Int.tdiv (now - d.midnight zone) 31557600 := by
  simp only [calculateAge, mktime_get_time zone d h]
  exact static_cast_int_val _ (tdiv_year_range _ h1 h2)

theorem midnight_eq (zone : Zone) (d : Date) (h : d.valid) :
    d.midnight zone = daysFromCivil d.year d.month d.day * 86400
      - zone.offset (daysFromCivil d.year d.month d.day * 86400) := by
  rw [daysFromCivil_eq_dayNumber d h, Date.midnight]

/-! ## The properties of the specification -/

/-- C1 (as amended): on every stored table the criteria query returns, in stored order, exactly
the rows whose gender is the text Male and whose full name begins with F or f. -/
theorem getEmployeesByCriteria_spec (db : Db) (rows : List Row) (ht : db.table = some rows) :
    getEmployeesByCriteria db =
      .ok ((rows.filter (fun r => decide (r.gender = "Male".toList ∧
              (r.fullName.head? = some 'F' ∨ r.fullName.head? = some 'f')))).map Row.employee)
        ⟨db.table, db.seq, db.trace ++ [selectCriteriaSql]⟩ := by
  rw [getEmployeesByCriteria_eq db rows ht]
  have hf : whereCriteria = (fun r => decide (r.gender = "Male".toList ∧
      (r.fullName.head? = some 'F' ∨ r.fullName.head? = some 'f'))) := by
    funext r
    by_cases hg : r.gender = "Male".toList
    · by_cases hl : r.fullName.head? = some 'F' ∨ r.fullName.head? = some 'f'
      · simp only [whereCriteria, hg, hl, and_self, decide_True, Bool.true_and]
        exact (likeMatch_F _).mpr hl
      · simp only [whereCriteria, hg, hl, and_false, decide_False, decide_True, Bool.true_and]
        cases h : likeMatch "F%".toList r.fullName
        · rfl
        · exact absurd ((likeMatch_F _).mp h) hl
    · simp only [whereCriteria, hg, false_and, decide_False, Bool.false_and]
  rw [hf]

/-- The criteria query on a table that holds the one male employee Fay. -/
theorem getEmployeesByCriteria_spec_witness :
    getEmployeesByCriteria ⟨some [⟨1, "Fay".toList, "1990-01-01".toList, "Male".toList, ⟨30, by decide⟩⟩], 1, []⟩ =
      .ok (([(⟨1, "Fay".toList, "1990-01-01".toList, "Male".toList, ⟨30, by decide⟩⟩ : Row)].filter
          (fun r => decide (r.gender = "Male".toList ∧
              (r.fullName.head? = some 'F' ∨ r.fullName.head? = some 'f')))).map Row.employee)
        ⟨some [⟨1, "Fay".toList, "1990-01-01".toList, "Male".toList, ⟨30, by decide⟩⟩], 1,
          [] ++ [selectCriteriaSql]⟩ :=
  getEmployeesByCriteria_spec _ _ rfl

/-- C1 (counterexample): a stored male employee named fred, whose name begins with a lowercase
f and not with F, is returned by the criteria query. -/
theorem getEmployeesByCriteria_returns_lowercase :
    getEmployeesByCriteria
        ⟨some [⟨1, "fred".toList, "1990-01-01".toList, "Male".toList, ⟨30, by decide⟩⟩], 1, []⟩ =
      .ok [⟨"fred".toList, "1990-01-01".toList, "Male".toList, ⟨30, by decide⟩⟩]
        ⟨some [⟨1, "fred".toList, "1990-01-01".toList, "Male".toList, ⟨30, by decide⟩⟩], 1,
          [selectCriteriaSql]⟩
    ∧ "fred".toList.head? ≠ some 'F' := by
  decide

/-- C2: on every stored table `getAllEmployees` returns a permutation of the stored records
that is sorted by full name in ascending lexicographic order, and leaves the table as it was. -/
theorem getAllEmployees_sorted_perm (db : Db) (rows : List Row) (ht : db.table = some rows) :
    ∃ employees db1, getAllEmployees db = .ok employees db1
      ∧ employees.Perm (rows.map Row.employee)
      ∧ employees.Pairwise (fun a b => textLe a.fullName b.fullName = true)
      ∧ db1.table = some rows := by
  refine ⟨_, _, getAllEmployees_eq db rows ht, (orderByFullName_perm rows).map _, ?_, ht⟩
  rw [List.pairwise_map]
  exact orderByFullName_sorted rows

/-- The listing of a table that holds Zed and Amy, stored in this order. -/
theorem getAllEmployees_sorted_perm_witness :
    ∃ employees db1,
      getAllEmployees ⟨some [⟨1, "Zed".toList, "1990-01-01".toList, "Male".toList, ⟨30, by decide⟩⟩,
          ⟨2, "Amy".toList, "1991-01-01".toList, "Female".toList, ⟨29, by decide⟩⟩], 2, []⟩
        = .ok employees db1
      ∧ employees.Perm (([⟨1, "Zed".toList, "1990-01-01".toList, "Male".toList, ⟨30, by decide⟩⟩,
          ⟨2, "Amy".toList, "1991-01-01".toList, "Female".toList, ⟨29, by decide⟩⟩] : List Row).map
            Row.employee)
      ∧ employees.Pairwise (fun a b => textLe a.fullName b.fullName = true)
      ∧ db1.table = some [⟨1, "Zed".toList, "1990-01-01".toList, "Male".toList, ⟨30, by decide⟩⟩,
          ⟨2, "Amy".toList, "1991-01-01".toList, "Female".toList, ⟨29, by decide⟩⟩] :=
  getAllEmployees_sorted_perm _ _ rfl

/-- C3 (failing input): the record with full name a''b is inserted without error, and the
listing then returns the full name a'b, which is not the name that was inserted. -/
theorem insert_then_list_doubled_quote :
    insertEmployee ⟨some [], 0, []⟩
        ⟨"a''b".toList, "1990-01-01".toList, "Male".toList, ⟨30, by decide⟩⟩ =
      .ok () ⟨some [⟨1, "a'b".toList, "1990-01-01".toList, "Male".toList, ⟨30, by decide⟩⟩], 1,
        ["INSERT INTO EMPLOYEE (FULLNAME, BIRTHDATE, GENDER, AGE) VALUES ('a''b', '1990-01-01', 'Male', 30);".toList]⟩
    ∧ getAllEmployees
        ⟨some [⟨1, "a'b".toList, "1990-01-01".toList, "Male".toList, ⟨30, by decide⟩⟩], 1,
        ["INSERT INTO EMPLOYEE (FULLNAME, BIRTHDATE, GENDER, AGE) VALUES ('a''b', '1990-01-01', 'Male', 30);".toList]⟩ =
      .ok [⟨"a'b".toList, "1990-01-01".toList, "Male".toList, ⟨30, by decide⟩⟩]
        ⟨some [⟨1, "a'b".toList, "1990-01-01".toList, "Male".toList, ⟨30, by decide⟩⟩], 1,
        ["INSERT INTO EMPLOYEE (FULLNAME, BIRTHDATE, GENDER, AGE) VALUES ('a''b', '1990-01-01', 'Male', 30);".toList,
          selectAllSql]⟩
    ∧ "a'b".toList ≠ "a''b".toList := by
  decide

/-- C4 (as amended): with mode argument 2, `main` demands at least three further arguments.
With fewer it writes nothing to standard output, exits with status 1, leaves the database
untouched and, when the database opens, writes `Invalid arguments for mode 2.` to the error
stream.  With three or more it reports no usage error and behaves as if only the first three
had been given: the arguments after the third are ignored.  It then inserts the record made
of the first three.  When the database opens, the table exists and the three texts hold no
quote character, exactly one row with these three texts is appended and the exit status is 0.
When the database opens, the three texts hold no quote character and the table is missing,
the insert fails, no row is stored and the exit status is 1.  When the database does not
open, the exit status is 1 and nothing is executed. -/
theorem main_mode2 (env : Env) (argv : List Text) (db : Db) (mode : CInt)
    (hlen : 2 ≤ argv.length) (hm : stoi (argv.getD 1 []) = .ok mode) (h2 : mode.val = 2) :
    (argv.length < 5 → ∃ msg, main env argv db = some ⟨[], msg, 1, db⟩ ∧
      (env.openError = none → msg = "Invalid arguments for mode 2.\n".toList)) ∧
    (5 ≤ argv.length → main env argv db = main env (argv.take 5) db) ∧
    (5 ≤ argv.length → env.openError = none →
      quote ∉ argv.getD 2 [] → quote ∉ argv.getD 3 [] → quote ∉ argv.getD 4 [] →
      ∃ age : CInt,
        (∀ rows, db.table = some rows →
          main env argv db = some ⟨"Сотрудник был успешно добавлен.\n".toList, [], 0,
            ⟨some (rows ++ [⟨db.seq + 1, argv.getD 2 [], argv.getD 3 [], argv.getD 4 [], age⟩]),
              db.seq + 1,
              db.trace ++ [insertSql ⟨argv.getD 2 [], argv.getD 3 [], argv.getD 4 [], age⟩]⟩⟩) ∧
        (db.table = none →
          main env argv db = some ⟨[], "Error: SQL error: no such table: EMPLOYEE\n".toList, 1,
            ⟨none, db.seq,
              db.trace ++ [insertSql ⟨argv.getD 2 [], argv.getD 3 [], argv.getD 4 [], age⟩]⟩⟩)) ∧
    (∀ msg, env.openError = some msg → ∃ err, main env argv db = some ⟨[], err, 1, db⟩) := by
  have hl : ¬ argv.length < 2 := by omega
  have h1 : ¬ ((2 : Int) = 1) := by decide
  refine ⟨?_, ?_, ?_, ?_⟩
  · intro h5
    cases ho : env.openError with
    | some e =>
      exact ⟨_, by simp only [main, hl, if_false, ho]; rfl, fun h => by simp at h⟩
    | none =>
      exact ⟨_, by simp only [main, hl, if_false, ho, hm, h1, h2, h5, if_true], fun _ => rfl⟩
  · intro h5
    have hl5 : ¬ (argv.take 5).length < 2 := by rw [List.length_take]; omega
    have h5n : ¬ argv.length < 5 := by omega
    have h5t : ¬ (argv.take 5).length < 5 := by rw [List.length_take]; omega
    simp only [main, hl, hl5, if_false, getD_take_five argv 1 (by decide),
      getD_take_five argv 2 (by decide), getD_take_five argv 3 (by decide),
      getD_take_five argv 4 (by decide), h5n, h5t]
  · intro h5 ho q2 q3 q4
    have h5n : ¬ argv.length < 5 := by omega
    refine ⟨calculateAge env.utcOffset (env.clock 0) (argv.getD 3 []), ?_, ?_⟩
    · intro rows ht
      simp only [main, hl, if_false, ho, hm, h1, h2, h5n, if_true, runMode2]
      rw [insertEmployee_ok db rows _ ht q2 q3 q4]
      rfl
    · intro ht
      simp only [main, hl, if_false, ho, hm, h1, h2, h5n, if_true, runMode2]
      rw [insertEmployee_no_table db _ ht q2 q3 q4]
      simp only [andPrint, finish, caught, ht]
      rfl
  · intro msg ho
    exact ⟨_, by simp only [main, hl, if_false, ho]; rfl⟩

/-- Mode 2 with exactly three further arguments on an empty table. -/
theorem main_mode2_witness :
    (["prog".toList, "2".toList, "Ivan Petrov".toList, "1990-05-20".toList, "Male".toList].length
        < 5 →
      ∃ msg, main ⟨0, fun _ => 1700000000, none, []⟩
          ["prog".toList, "2".toList, "Ivan Petrov".toList, "1990-05-20".toList, "Male".toList]
          ⟨some [], 0, []⟩ = some ⟨[], msg, 1, ⟨some [], 0, []⟩⟩ ∧
        ((⟨0, fun _ => 1700000000, none, []⟩ : Env).openError = none →
          msg = "Invalid arguments for mode 2.\n".toList)) ∧
    (5 ≤ ["prog".toList, "2".toList, "Ivan Petrov".toList, "1990-05-20".toList,
        "Male".toList].length →
      main ⟨0, fun _ => 1700000000, none, []⟩
          ["prog".toList, "2".toList, "Ivan Petrov".toList, "1990-05-20".toList, "Male".toList]
          ⟨some [], 0, []⟩ =
        main ⟨0, fun _ => 1700000000, none, []⟩
          (["prog".toList, "2".toList, "Ivan Petrov".toList, "1990-05-20".toList,
            "Male".toList].take 5)
          ⟨some [], 0, []⟩) ∧
    (5 ≤ ["prog".toList, "2".toList, "Ivan Petrov".toList, "1990-05-20".toList,
        "Male".toList].length →
      (⟨0, fun _ => 1700000000, none, []⟩ : Env).openError = none →
      quote ∉ ["prog".toList, "2".toList, "Ivan Petrov".toList, "1990-05-20".toList,
        "Male".toList].getD 2 [] →
      quote ∉ ["prog".toList, "2".toList, "Ivan Petrov".toList, "1990-05-20".toList,
        "Male".toList].getD 3 [] →
      quote ∉ ["prog".toList, "2".toList, "Ivan Petrov".toList, "1990-05-20".toList,
        "Male".toList].getD 4 [] →
      ∃ age : CInt,
        (∀ rows, (⟨some [], 0, []⟩ : Db).table = some rows →
          main ⟨0, fun _ => 1700000000, none, []⟩
              ["prog".toList, "2".toList, "Ivan Petrov".toList, "1990-05-20".toList,
                "Male".toList]
              ⟨some [], 0, []⟩ =
            some ⟨"Сотрудник был успешно добавлен.\n".toList, [], 0,
              ⟨some (rows ++ [⟨0 + 1, "Ivan Petrov".toList, "1990-05-20".toList, "Male".toList,
                  age⟩]),
                0 + 1,
                [] ++ [insertSql ⟨"Ivan Petrov".toList, "1990-05-20".toList, "Male".toList,
                  age⟩]⟩⟩) ∧
        ((⟨some [], 0, []⟩ : Db).table = none →
          main ⟨0, fun _ => 1700000000, none, []⟩
              ["prog".toList, "2".toList, "Ivan Petrov".toList, "1990-05-20".toList,
                "Male".toList]
              ⟨some [], 0, []⟩ =
            some ⟨[], "Error: SQL error: no such table: EMPLOYEE\n".toList, 1,
              ⟨none, 0,
                [] ++ [insertSql ⟨"Ivan Petrov".toList, "1990-05-20".toList, "Male".toList,
                  age⟩]⟩⟩)) ∧
    (∀ msg, (⟨0, fun _ => 1700000000, none, []⟩ : Env).openError = some msg →
      ∃ err, main ⟨0, fun _ => 1700000000, none, []⟩
          ["prog".toList, "2".toList, "Ivan Petrov".toList, "1990-05-20".toList, "Male".toList]
          ⟨some [], 0, []⟩ = some ⟨[], err, 1, ⟨some [], 0, []⟩⟩) :=
  main_mode2 ⟨0, fun _ => 1700000000, none, []⟩
    ["prog".toList, "2".toList, "Ivan Petrov".toList, "1990-05-20".toList, "Male".toList]
    ⟨some [], 0, []⟩ ⟨2, by decide⟩ (by decide) rfl rfl

/-- C4 (counterexample): with mode 2 and four further arguments, one more than three, `main`
reports no usage error: it exits with status 0, writes nothing to the error stream and
inserts a row. -/
theorem main_mode2_four_arguments :
    (main ⟨0, fun _ => 1700000000, none, []⟩
        ["prog".toList, "2".toList, "Ivan Petrov".toList, "1990-05-20".toList, "Male".toList,
          "extra".toList]
        ⟨some [], 0, []⟩).map (fun r => (r.status, r.stderr, r.db.table)) =
      some (0, [], some [⟨1, "Ivan Petrov".toList, "1990-05-20".toList, "Male".toList,
        ⟨33, by decide⟩⟩]) := by
  decide

/-- C5: when there is no mode argument, or the mode number is not one of 1 to 5, `main` writes
nothing to standard output, writes a message to the error stream, exits with status 1 and
leaves the database as it was, its list of executed statements included.  The message is
`Invalid arguments.` without a mode argument and `Unknown mode.` for a mode number outside
1 to 5 (or the report of the failed open when the database file cannot be opened). -/
theorem main_rejects (env : Env) (argv : List Text) (db : Db)
    (h : argv.length < 2 ∨
      ∃ mode, stoi (argv.getD 1 []) = .ok mode ∧ (mode.val < 1 ∨ 5 < mode.val)) :
    ∃ msg, main env argv db = some ⟨[], msg, 1, db⟩ ∧ msg ≠ [] ∧
      (argv.length < 2 → msg = "Invalid arguments.\n".toList) ∧
      (2 ≤ argv.length → env.openError = none → msg = "Unknown mode.\n".toList) := by
  by_cases hl : argv.length < 2
  · refine ⟨"Invalid arguments.\n".toList, ?_, by decide, fun _ => rfl, fun h2 => by omega⟩
    simp [main, hl]
  · rcases h with h | ⟨mode, hm, hr⟩
    · exact absurd h hl
    · cases ho : env.openError with
      | some e =>
        refine ⟨"Error: ".toList ++ ("Не удается открыть базу данных: ".toList ++ e) ++ ['\n'],
          ?_, ?_, fun h2 => absurd h2 hl, fun _ h3 => by simp at h3⟩
        · simp [main, hl, ho, caught]
        · simp
      | none =>
        refine ⟨"Unknown mode.\n".toList, ?_, by decide, fun h2 => absurd h2 hl, fun _ _ => rfl⟩
        have h1 : mode.val ≠ 1 := by omega
        have h2 : mode.val ≠ 2 := by omega
        have h3 : mode.val ≠ 3 := by omega
        have h4 : mode.val ≠ 4 := by omega
        have h5 : mode.val ≠ 5 := by omega
        simp only [main, hl, if_false, ho, hm, h1, h2, h3, h4, h5]

/-- The run with mode argument 99. -/
theorem main_rejects_witness :
    (["prog".toList, "99".toList].length < 2 ∨
      ∃ mode, stoi (["prog".toList, "99".toList].getD 1 []) = .ok mode ∧
        (mode.val < 1 ∨ 5 < mode.val)) ∧
    ∃ msg, main ⟨0, fun _ => 1700000000, none, []⟩ ["prog".toList, "99".toList]
        ⟨some [], 0, []⟩ = some ⟨[], msg, 1, ⟨some [], 0, []⟩⟩ ∧ msg ≠ [] ∧
      (["prog".toList, "99".toList].length < 2 → msg = "Invalid arguments.\n".toList) ∧
      (2 ≤ ["prog".toList, "99".toList].length →
        (⟨0, fun _ => 1700000000, none, []⟩ : Env).openError = none →
        msg = "Unknown mode.\n".toList) :=
  ⟨Or.inr ⟨⟨99, by decide⟩, rfl, Or.inr (by decide)⟩,
    main_rejects _ _ _ (Or.inr ⟨⟨99, by decide⟩, rfl, Or.inr (by decide)⟩)⟩

/-- C6 (as amended): mode 3 prints the records that `getAllEmployees` returns, one line per
record in the returned order, and each line is the full name, the birth date, the gender and
the text `Возраст: ` followed by the decimal age, the four parts separated by a comma and a
blank. -/
theorem runMode3_prints (db db1 : Db) (employees : List Employee)
    (h : getAllEmployees db = .ok employees db1) :
    runMode3 db = .ok (employees.flatMap (fun e =>
        e.fullName ++ ", ".toList ++ e.birthDate ++ ", ".toList ++ e.gender
          ++ ", Возраст: ".toList ++ to_string e.age.val ++ "\n".toList)) db1 := by
  have hp : ∀ es : List Employee, printEmployees es = es.flatMap (fun e =>
      e.fullName ++ ", ".toList ++ e.birthDate ++ ", ".toList ++ e.gender
        ++ ", Возраст: ".toList ++ to_string e.age.val ++ "\n".toList) := by
    intro es
    induction es with
    | nil => rfl
    | cons e es ih =>
      rw [printEmployees, ih, List.flatMap_cons]
      rfl
  simp only [runMode3, h, hp, andPrint]

/-- Mode 3 on a table that holds the one record of Ivan Petrov. -/
theorem runMode3_prints_witness :
    runMode3 ⟨some [⟨1, "Ivan Petrov".toList, "1990-05-20".toList, "Male".toList,
        ⟨33, by decide⟩⟩], 1, []⟩ =
      .ok (([⟨"Ivan Petrov".toList, "1990-05-20".toList, "Male".toList, ⟨33, by decide⟩⟩] :
          List Employee).flatMap (fun e =>
        e.fullName ++ ", ".toList ++ e.birthDate ++ ", ".toList ++ e.gender
          ++ ", Возраст: ".toList ++ to_string e.age.val ++ "\n".toList))
        ⟨some [⟨1, "Ivan Petrov".toList, "1990-05-20".toList, "Male".toList,
          ⟨33, by decide⟩⟩], 1, [selectAllSql]⟩ :=
  runMode3_prints _ _ _ (by decide)

/-- C6 (counterexample): for the stored record of Ivan Petrov mode 3 prints the line
`Ivan Petrov, 1990-05-20, Male, Возраст: 33`, which is not the line
`Ivan Petrov, 1990-05-20, Male, Age: 33`. -/
theorem runMode3_label :
    runMode3 ⟨some [⟨1, "Ivan Petrov".toList, "1990-05-20".toList, "Male".toList,
        ⟨33, by decide⟩⟩], 1, []⟩ =
      .ok "Ivan Petrov, 1990-05-20, Male, Возраст: 33\n".toList
        ⟨some [⟨1, "Ivan Petrov".toList, "1990-05-20".toList, "Male".toList,
          ⟨33, by decide⟩⟩], 1, [selectAllSql]⟩
    ∧ "Ivan Petrov, 1990-05-20, Male, Возраст: 33\n".toList
        ≠ "Ivan Petrov, 1990-05-20, Male, Age: 33\n".toList := by
  decide

/-- C7: on every store whose table exists, mode 4 runs to completion, and the criteria query
after it returns the records the query returned before it followed by exactly the 100 records
of the second loop, named F0 to F99 with gender Male; none of these is a Name record, and on
a table that was empty before the result is these 100 records alone. -/
theorem runMode4_then_criteria (env : Env) (db : Db) (rows : List Row)
    (ht : db.table = some rows) :
    ∃ out db1 before dbq db2,
      runMode4 env db = .ok out db1 ∧
      getEmployeesByCriteria db = .ok before dbq ∧
      getEmployeesByCriteria db1 =
        .ok (before ++ (List.range 100).map (fun (j : Nat) =>
          (⟨"F".toList ++ to_string (j : Int), "1990-01-01".toList, "Male".toList,
            calculateAge env.utcOffset (env.clock (1000000 + j)) "1990-01-01".toList⟩ :
              Employee))) db2 ∧
      (rows = [] → before = []) ∧
      ((List.range 100).map (fun (j : Nat) =>
          (⟨"F".toList ++ to_string (j : Int), "1990-01-01".toList, "Male".toList,
            calculateAge env.utcOffset (env.clock (1000000 + j)) "1990-01-01".toList⟩ :
              Employee))).length = 100 ∧
      ∀ (j i : Nat), "F".toList ++ to_string (j : Int) ≠ "Name".toList ++ to_string (i : Int) := by
  obtain ⟨db1, newRows, hrun, htab, hmap⟩ :=
    insertMultipleEmployees_ok (mode4Employees env) (mode4Employees_quote_free env) db rows ht
  refine ⟨"1000100 сотрудников были успешно добавлены.\n".toList, db1, _, _,
    ⟨db1.table, db1.seq, db1.trace ++ [selectCriteriaSql]⟩, ?_,
    getEmployeesByCriteria_eq db rows ht, ?_, ?_, ?_, ?_⟩
  · rw [runMode4, hrun]
    rfl
  · rw [getEmployeesByCriteria_eq db1 _ htab, List.filter_append, List.map_append,
      filter_mode4_rows env newRows hmap]
    rfl
  · intro h; rw [h]; rfl
  · rw [List.length_map, List.length_range]
  · intro j i h
    have hh := congrArg List.head? h
    have hF : ("F".toList ++ to_string (j : Int)).head? = some 'F' := rfl
    have hN : ("Name".toList ++ to_string (i : Int)).head? = some 'N' := rfl
    rw [hF, hN] at hh
    exact absurd hh (by decide)

/-- Mode 4 and the criteria query on an empty table. -/
theorem runMode4_then_criteria_witness :
    ∃ out db1 before dbq db2,
      runMode4 ⟨0, fun _ => 1700000000, none, []⟩ ⟨some [], 0, []⟩ = .ok out db1 ∧
      getEmployeesByCriteria ⟨some [], 0, []⟩ = .ok before dbq ∧
      getEmployeesByCriteria db1 =
        .ok (before ++ (List.range 100).map (fun (j : Nat) =>
          (⟨"F".toList ++ to_string (j : Int), "1990-01-01".toList, "Male".toList,
            calculateAge (⟨0, fun _ => 1700000000, none, []⟩ : Env).utcOffset
              ((⟨0, fun _ => 1700000000, none, []⟩ : Env).clock (1000000 + j))
              "1990-01-01".toList⟩ : Employee))) db2 ∧
      (([] : List Row) = [] → before = []) ∧
      ((List.range 100).map (fun (j : Nat) =>
          (⟨"F".toList ++ to_string (j : Int), "1990-01-01".toList, "Male".toList,
            calculateAge (⟨0, fun _ => 1700000000, none, []⟩ : Env).utcOffset
              ((⟨0, fun _ => 1700000000, none, []⟩ : Env).clock (1000000 + j))
              "1990-01-01".toList⟩ : Employee))).length = 100 ∧
      ∀ (j i : Nat), "F".toList ++ to_string (j : Int) ≠ "Name".toList ++ to_string (i : Int) :=
  runMode4_then_criteria ⟨0, fun _ => 1700000000, none, []⟩ ⟨some [], 0, []⟩ [] rfl

/-- C8: fix the current time `now` and let `today` be the local date of `now`, so that `now`
is less than a day before and less than two days after the instant at which `today` begins
for `mktime` (daylight saving time can move that instant by an hour or so).  For valid dates
`d1`, `d2` with `d1 ≤ d2 ≤ today`, in every time zone, the age computed for a date is the
number of seconds elapsed from the beginning of the date to `now`, divided by 31557600 and
truncated toward zero; the age computed for `d2` is not negative, and the age computed for
the earlier date `d1` is at least the age computed for `d2`. -/
theorem calculateAge_nonneg_antitone (zone : Zone) (now : Int) (d1 d2 today : Date)
    (h1 : d1.valid) (h2 : d2.valid) (ht : today.valid) (h12 : d1.le d2) (h2t : d2.le today)
    (hnow : today.midnight zone - 86400 < now) (hday : now < today.midnight zone + 2 * 86400) :
    (calculateAge zone now d2.text).val = Int.tdiv (now - d2.midnight zone) 31557600 ∧
    (calculateAge zone now d1.text).val = Int.tdiv (now - d1.midnight zone) 31557600 ∧
    0 ≤ (calculateAge zone now d2.text).val ∧
    (calculateAge zone now d2.text).val ≤ (calculateAge zone now d1.text).val := by
  have m12 := midnight_mono zone d1 d2 h1 h2 h12
  have m2t := midnight_mono zone d2 today h2 ht h2t
  have b1 := midnight_bounds zone d1 h1
  have bt := midnight_bounds zone today ht
  have c2 := calculateAge_text zone now d2 h2 (by omega) (by omega)
  have c1 := calculateAge_text zone now d1 h1 (by omega) (by omega)
  rw [c2, c1]
  exact ⟨rfl, rfl, tdiv_year_nonneg _ (by omega), tdiv_year_mono _ _ (by omega)⟩

/-- The ages for 2010-06-01 and 2012-06-01, dates on either side of the change of the zone,
at the instant 1700000000, which lies on 2023-11-15 in the zone. -/
theorem calculateAge_nonneg_antitone_witness :
    (calculateAge Zone.shifted 1700000000 (Date.text ⟨2012, 6, 1⟩)).val
      = Int.tdiv (1700000000 - Date.midnight Zone.shifted ⟨2012, 6, 1⟩) 31557600 ∧
    (calculateAge Zone.shifted 1700000000 (Date.text ⟨2010, 6, 1⟩)).val
      = Int.tdiv (1700000000 - Date.midnight Zone.shifted ⟨2010, 6, 1⟩) 31557600 ∧
    0 ≤ (calculateAge Zone.shifted 1700000000 (Date.text ⟨2012, 6, 1⟩)).val ∧
    (calculateAge Zone.shifted 1700000000 (Date.text ⟨2012, 6, 1⟩)).val
      ≤ (calculateAge Zone.shifted 1700000000 (Date.text ⟨2010, 6, 1⟩)).val :=
  calculateAge_nonneg_antitone Zone.shifted 1700000000 ⟨2010, 6, 1⟩ ⟨2012, 6, 1⟩ ⟨2023, 11, 15⟩
    (by decide) (by decide) (by decide) (by decide) (by decide)
    (by rw [midnight_eq _ _ (by decide)]; decide)
    (by rw [midnight_eq _ _ (by decide)]; decide)

/-- C9: take an existing table and a list of records that starts with the records `pre`,
whose insert statements are well formed and denote the values `vs`.  Then the inserts of
`pre` all succeed and append exactly one row per record, in list order (for a record without
quote characters the values are the record itself).  If the insert of the next record `e`
throws, so that it is the first to fail, `insertMultipleEmployees` throws the same exception
to its caller; the table then holds exactly the rows of `pre` after the old ones, nothing is
rolled back, and the statements executed are those of `pre` and of `e`: no record after `e`
is tried. -/
theorem insertMultipleEmployees_first_failure (db : Db) (rows : List Row) (ht : db.table = some rows)
    (pre : List Employee) (vs : List InsertValues)
    (hpre : pre.map (fun e => parseInsert (insertSql e)) = vs.map some) :
    insertMultipleEmployees db pre = .ok ()
        ⟨some (rows ++ rowsFrom db.seq vs), db.seq + pre.length, db.trace ++ pre.map insertSql⟩
    ∧ (∀ e : Employee, quote ∉ e.fullName → quote ∉ e.birthDate → quote ∉ e.gender →
        parseInsert (insertSql e) = some ⟨e.fullName, e.birthDate, e.gender, e.age⟩)
    ∧ ∀ (e : Employee) (post : List Employee) (what : Text) (db2 : Db),
        insertEmployee
            ⟨some (rows ++ rowsFrom db.seq vs), db.seq + pre.length,
              db.trace ++ pre.map insertSql⟩ e = .throws what db2 →
        insertMultipleEmployees db (pre ++ e :: post) = .throws what db2
          ∧ db2 = ⟨some (rows ++ rowsFrom db.seq vs), db.seq + pre.length,
              db.trace ++ (pre ++ [e]).map insertSql⟩ := by
  have hok := insertMultipleEmployees_values pre vs db rows ht hpre
  refine ⟨hok, fun e h1 h2 h3 => parseInsert_insertSql e h1 h2 h3, ?_⟩
  intro e post what db2 hthrow
  constructor
  · rw [insertMultipleEmployees_append pre (e :: post) db _ hok]
    simp only [insertMultipleEmployees, hthrow]
  · rw [insertEmployee_throws _ db2 e what hthrow]
    simp

/-- The batch Ann, O'Neil, Bob on an empty table: the insert of O'Neil is the first to fail,
with a syntax error; the exception reaches the caller, the row of Ann stays and Bob is not
tried. -/
theorem insertMultipleEmployees_first_failure_witness :
    (⟨some [], 0, []⟩ : Db).table = some [] ∧
    [(⟨"Ann".toList, "1990-01-01".toList, "Female".toList, ⟨30, by decide⟩⟩ : Employee)].map
        (fun e => parseInsert (insertSql e))
      = [(⟨"Ann".toList, "1990-01-01".toList, "Female".toList, ⟨30, by decide⟩⟩ :
          InsertValues)].map some ∧
    insertMultipleEmployees ⟨some [], 0, []⟩
        ([⟨"Ann".toList, "1990-01-01".toList, "Female".toList, ⟨30, by decide⟩⟩] ++
          ⟨"O'Neil".toList, "1990-01-01".toList, "Male".toList, ⟨30, by decide⟩⟩ ::
          [⟨"Bob".toList, "1990-01-01".toList, "Male".toList, ⟨30, by decide⟩⟩]) =
      .throws "SQL error: near \"Neil\": syntax error".toList
        ⟨some [⟨1, "Ann".toList, "1990-01-01".toList, "Female".toList, ⟨30, by decide⟩⟩], 1,
          ["INSERT INTO EMPLOYEE (FULLNAME, BIRTHDATE, GENDER, AGE) VALUES ('Ann', '1990-01-01', 'Female', 30);".toList,
           "INSERT INTO EMPLOYEE (FULLNAME, BIRTHDATE, GENDER, AGE) VALUES ('O'Neil', '1990-01-01', 'Male', 30);".toList]⟩ :=
  ⟨rfl, by decide,
    ((insertMultipleEmployees_first_failure ⟨some [], 0, []⟩ [] rfl
        [⟨"Ann".toList, "1990-01-01".toList, "Female".toList, ⟨30, by decide⟩⟩]
        [⟨"Ann".toList, "1990-01-01".toList, "Female".toList, ⟨30, by decide⟩⟩] (by decide)).2.2
      ⟨"O'Neil".toList, "1990-01-01".toList, "Male".toList, ⟨30, by decide⟩⟩
      [⟨"Bob".toList, "1990-01-01".toList, "Male".toList, ⟨30, by decide⟩⟩]
      "SQL error: near \"Neil\": syntax error".toList
      ⟨some [⟨1, "Ann".toList, "1990-01-01".toList, "Female".toList, ⟨30, by decide⟩⟩], 1,
          ["INSERT INTO EMPLOYEE (FULLNAME, BIRTHDATE, GENDER, AGE) VALUES ('Ann', '1990-01-01', 'Female', 30);".toList,
           "INSERT INTO EMPLOYEE (FULLNAME, BIRTHDATE, GENDER, AGE) VALUES ('O'Neil', '1990-01-01', 'Male', 30);".toList]⟩
      (by decide)).1⟩

/-- C10: the list that mode 4 passes to `insertMultipleEmployees` has 1,000,100 elements;
element `i` for `i < 1000000` has the full name `Name` followed by the decimal numeral of `i`,
the birth date 1990-01-01 and the gender Male for even `i` and Female for odd `i`; element
`1000000 + j` for `j < 100` has the full name `F` followed by the decimal numeral of `j`,
the birth date 1990-01-01 and the gender Male. -/
theorem mode4Employees_spec (env : Env) :
    (mode4Employees env).length = 1000100 ∧
    (∀ i : Nat, i < 1000000 → ∃ e, (mode4Employees env)[i]? = some e ∧
      e.fullName = "Name".toList ++ to_string (i : Int) ∧
      e.birthDate = "1990-01-01".toList ∧
      e.gender = (if i % 2 = 0 then "Male".toList else "Female".toList)) ∧
    (∀ j : Nat, j < 100 → ∃ e, (mode4Employees env)[1000000 + j]? = some e ∧
      e.fullName = "F".toList ++ to_string (j : Int) ∧
      e.birthDate = "1990-01-01".toList ∧
      e.gender = "Male".toList) := by
  rw [mode4Employees_eq]
  refine ⟨?_, ?_, ?_⟩
  · rw [List.length_append, List.length_map, List.length_map, List.length_range,
      List.length_range]
  · intro i hi
    refine ⟨nameEmployee env i, ?_, rfl, rfl, rfl⟩
    rw [List.getElem?_append_left (by rw [List.length_map, List.length_range]; exact hi),
      List.getElem?_map, List.getElem?_range hi]
    rfl
  · intro j hj
    refine ⟨fEmployee env j, ?_, rfl, rfl, rfl⟩
    have hlen : ((List.range 1000000).map (nameEmployee env)).length = 1000000 := by
      rw [List.length_map, List.length_range]
    rw [List.getElem?_append_right (by rw [hlen]; omega), hlen, Nat.add_sub_cancel_left,
      List.getElem?_map, List.getElem?_range hj]
    rfl

end EmployeeDb
